import Mathlib

/-!
Verification development for the joinbell recruitment bot (src/main.rs).

The Rust source is shallowly embedded: pure string manipulation becomes Lean
functions on `String`/`List Char`, the Discord side effects of the reaction
handler become an explicit trace of `Effect` values plus explicit state
passing, and fallible operations return `Except`/`Option`.  Machine integers
(`usize`, `u64`, the `i64` used internally by the TOML crate) are modelled as
`Nat`/`Int` with explicit bounds checks where the source can overflow or
reject.
-/

namespace Joinbell

/-! ## Generic list/char utilities (models of Rust `str` operations) -/

/-- Model of Rust `str::find` for a substring pattern: index of the first
occurrence of `pat` in `l`, or `none`.  (We use character indices where Rust
uses byte indices; the two agree at every pattern occurrence boundary used by
the source, since slicing always happens exactly at an occurrence of an ASCII
marker.) -/
def findSub (pat : List Char) : List Char → Option Nat
  | [] => if pat.isEmpty then some 0 else none
  | c :: t => if pat.isPrefixOf (c :: t) then some 0 else (findSub pat t).map (· + 1)

/-- Model of Rust `str::contains` for a substring pattern. -/
def containsSub (pat l : List Char) : Bool := (findSub pat l).isSome

/-- Model of Rust `str::trim` (the block edges trimmed by the source are
always `'\n'`, which both Rust and this model treat as whitespace). -/
def trimChars (l : List Char) : List Char :=
  ((l.dropWhile Char.isWhitespace).reverse.dropWhile Char.isWhitespace).reverse

/-- Split a character list at every occurrence of `sep` (used to model the
line structure the TOML parser sees). -/
def splitOnChar (sep : Char) : List Char → List (List Char)
  | [] => [[]]
  | c :: t =>
    match splitOnChar sep t with
    | [] => if c = sep then [[], []] else [[c]]
    | h :: r => if c = sep then [] :: h :: r else (c :: h) :: r

/-- The character for a decimal digit value. -/
def digitChar : Nat → Char
  | 0 => '0' | 1 => '1' | 2 => '2' | 3 => '3' | 4 => '4'
  | 5 => '5' | 6 => '6' | 7 => '7' | 8 => '8' | _ => '9'

/-- Decimal digits of `n`, least significant first (`fuel`-driven so that the
definition is structurally recursive and kernel-reducible). -/
def natDigitsAux : Nat → Nat → List Char
  | 0, _ => []
  | fuel + 1, n =>
    if n = 0 then []
    else digitChar (n % 10) :: natDigitsAux fuel (n / 10)

/-- Model of Rust's `Display` for unsigned integers (decimal). -/
def natRepr (n : Nat) : List Char :=
  if n = 0 then ['0'] else (natDigitsAux n n).reverse

def natReprStr (n : Nat) : String := String.mk (natRepr n)

/-! ## Data model (`RecruitConfig`, `ReactionType`) -/

def PARTICIPATION_EMOJI : String := "✋"
def SILENT_PARTICIPATION_EMOJI : String := "🤚"

/-- Model of serenity's `ReactionType`: a unicode emoji or a custom emoji. -/
inductive ReactionType where
  | unicode (value : String)
  | custom (id : Nat)
deriving DecidableEq, Repr

/-- `RecruitConfig` from the source (`usize` as `Nat`, `RoleId` as `Nat`). -/
structure RecruitConfig where
  game_title : String
  required_players : Nat
  mention_role : Option Nat
  notify_on_reaction : Bool
  auto_assign_role_on_reaction : Bool
deriving DecidableEq, Repr

def participation_reaction_type : ReactionType := .unicode PARTICIPATION_EMOJI

def silent_participation_reaction_type : ReactionType := .unicode SILENT_PARTICIPATION_EMOJI

def is_participation_reaction : ReactionType → Bool
  | .unicode value => value = PARTICIPATION_EMOJI
  | _ => false

def is_silent_participation_reaction : ReactionType → Bool
  | .unicode value => value = SILENT_PARTICIPATION_EMOJI
  | _ => false

def is_supported_participation_reaction (r : ReactionType) : Bool :=
  is_participation_reaction r || is_silent_participation_reaction r

/-! ## Encoding side (the `recruit` command, main.rs lines 113-152) -/

/-- Lowercase hex digits of `n`, least significant first. -/
def hexDigitsAux : Nat → Nat → List Char
  | 0, _ => []
  | fuel + 1, n =>
    if n = 0 then []
    else
      (match n % 16 with
       | 0 => '0' | 1 => '1' | 2 => '2' | 3 => '3' | 4 => '4'
       | 5 => '5' | 6 => '6' | 7 => '7' | 8 => '8' | 9 => '9'
       | 10 => 'a' | 11 => 'b' | 12 => 'c' | 13 => 'd' | 14 => 'e' | _ => 'f')
      :: hexDigitsAux fuel (n / 16)

def hexRepr (n : Nat) : List Char :=
  if n = 0 then ['0'] else (hexDigitsAux n n).reverse

/-- One character of Rust's `escape_debug` (used by `format!("{:?}", s)` on a
`String`): escapes `"` `\` `\n` `\r` `\t` `\0` and other control characters.
(Rust additionally escapes non-printable characters above U+007F by Unicode
tables; those are outside the fragment of inputs any theorem below touches.) -/
def rustEscapeChar (c : Char) : List Char :=
  if c = '"' then ['\\', '"']
  else if c = '\\' then ['\\', '\\']
  else if c = '\n' then ['\\', 'n']
  else if c = '\r' then ['\\', 'r']
  else if c = '\t' then ['\\', 't']
  else if c = '\x00' then ['\\', '0']
  else if c.toNat < 0x20 ∨ c.toNat = 0x7f then
    '\\' :: 'u' :: '\x7b' :: (hexRepr c.toNat ++ ['\x7d'])
  else [c]

/-- Model of `format!("{game_title:?}")`: quoted, `escape_debug`-escaped. -/
def rustDebugFormat (s : String) : String :=
  String.mk ('"' :: (s.data.flatMap rustEscapeChar ++ ['"']))

/-- The `config_lines` built by `recruit` (main.rs lines 118-131). -/
def config_lines (game_title : String) (required_players : Nat)
    (mention_role : Option Nat) (notify_on_reaction auto_assign_role_on_reaction : Bool) :
    List String :=
  ["game_title = " ++ rustDebugFormat game_title,
   "required_players = " ++ natReprStr required_players]
  ++ (match mention_role with
      | some role_id => ["mention_role = " ++ natReprStr role_id]
      | none => [])
  ++ (if notify_on_reaction then [] else ["notify_on_reaction = false"])
  ++ (if auto_assign_role_on_reaction then ["auto_assign_role_on_reaction = true"] else [])

/-- Model of `Vec::join("\n")`. -/
def joinLines : List String → String
  | [] => ""
  | [l] => l
  | l :: ls => l ++ "\n" ++ joinLines ls

def config_block (game_title : String) (required_players : Nat)
    (mention_role : Option Nat) (notify auto : Bool) : String :=
  joinLines (config_lines game_title required_players mention_role notify auto)

/-- The `reaction_line` built by `recruit` (main.rs lines 113-116). -/
def reaction_line (notify_on_reaction : Bool) : String :=
  PARTICIPATION_EMOJI ++ ": 参加"
  ++ (if notify_on_reaction then "\n" ++ SILENT_PARTICIPATION_EMOJI ++ ": 参加通知なしで参加" else "")

/-- The full `message_body` posted by `recruit` (main.rs lines 134-142). -/
def recruitMessageBody (game_title : String) (required_players : Nat)
    (mention_role : Option Nat) (notify auto : Bool) : String :=
  "\nこのメッセージにリアクションをつけると " ++ game_title ++ " に参加できます\n"
  ++ reaction_line notify
  ++ "\n人数が揃ったら開始通知が送られます\n```toml\n"
  ++ config_block game_title required_players mention_role notify auto
  ++ "\n```"

/-- The baseline reactions `recruit` attaches to the posted message
(main.rs lines 145-152): the participation emoji always, the silent one only
when `notify_on_reaction` is set. -/
def recruitBaselineReactions (notify_on_reaction : Bool) : List ReactionType :=
  participation_reaction_type
  :: (if notify_on_reaction then [silent_participation_reaction_type] else [])

/-! ## Decoding side (`extract_toml_block`, `toml::from_str`, main.rs 239-253) -/

def tomlOpenMarker : List Char := "```toml".data
def tomlCloseMarker : List Char := "```".data

/-- `extract_toml_block` (main.rs lines 248-253). -/
def extract_toml_block (content : List Char) : Option (List Char) :=
  match findSub tomlOpenMarker content with
  | none => none
  | some start_index =>
    let rest := content.drop (start_index + tomlOpenMarker.length)
    match findSub tomlCloseMarker rest with
    | none => none
    | some end_index => some (trimChars (rest.take end_index))

/-- TOML scalar values relevant to `RecruitConfig` (the crate stores integers
as `i64`, hence `Int` with bounds enforced during parsing). -/
inductive TomlVal where
  | str (s : String)
  | int (i : Int)
  | boolean (b : Bool)
deriving DecidableEq, Repr

/-- TOML line whitespace (space or tab). -/
def isTomlWs (c : Char) : Bool := c = ' ' || c = '\t'

def skipWs (l : List Char) : List Char := l.dropWhile isTomlWs

def isKeyChar (c : Char) : Bool := c.isAlphanum || c = '_' || c = '-'

def hexVal (c : Char) : Option Nat :=
  if '0' ≤ c ∧ c ≤ '9' then some (c.toNat - '0'.toNat)
  else if 'a' ≤ c ∧ c ≤ 'f' then some (c.toNat - 'a'.toNat + 10)
  else if 'A' ≤ c ∧ c ≤ 'F' then some (c.toNat - 'A'.toNat + 10)
  else none

/-- The single-character escape sequences of a TOML basic string. -/
def escapeCode (e : Char) : Option Char :=
  if e = 'n' then some '\n'
  else if e = 't' then some '\t'
  else if e = 'r' then some '\r'
  else if e = '"' then some '"'
  else if e = '\\' then some '\\'
  else if e = 'b' then some '\x08'
  else if e = 'f' then some '\x0c'
  else none

/-- Four hex digits and the rest of the input. -/
def parseHex4 : List Char → Option (Nat × List Char)
  | h1 :: h2 :: h3 :: h4 :: t =>
    match hexVal h1, hexVal h2, hexVal h3, hexVal h4 with
    | some v1, some v2, some v3, some v4 => some (((v1 * 16 + v2) * 16 + v3) * 16 + v4, t)
    | _, _, _, _ => none
  | _ => none

/-- Eight hex digits and the rest of the input. -/
def parseHex8 (l : List Char) : Option (Nat × List Char) :=
  match parseHex4 l with
  | some (hi, rest) =>
    match parseHex4 rest with
    | some (lo, rest2) => some (hi * 65536 + lo, rest2)
    | none => none
  | none => none

/-- What follows a backslash in a TOML basic string: the decoded character
and the rest of the input (`\uXXXX`/`\UXXXXXXXX` must denote Unicode scalar
values). -/
def unescapeStep : List Char → Option (Char × List Char)
  | [] => none
  | e :: t2 =>
    match escapeCode e with
    | some d => some (d, t2)
    | none =>
      if e = 'u' then
        match parseHex4 t2 with
        | some (v, t3) =>
          if h : v.isValidChar then some (Char.ofNatAux v h, t3) else none
        | none => none
      else if e = 'U' then
        match parseHex8 t2 with
        | some (v, t3) =>
          if h : v.isValidChar then some (Char.ofNatAux v h, t3) else none
        | none => none
      else none

/-- Body of a TOML basic string: escape sequences `\b \t \n \f \r \" \\ \uXXXX
\UXXXXXXXX`, raw control characters (other than tab) rejected, terminated by
an unescaped `"`.  Returns the decoded string and the rest of the line.
`fuel` only bounds the iteration count to keep the definition structurally
recursive; every call supplies at least the input length plus one, which a
step-per-character parse can never exhaust. -/
def parseBasicStringAux : Nat → List Char → List Char → Option (String × List Char)
  | 0, _, _ => none
  | fuel + 1, acc, l =>
    match l with
    | [] => none
    | c :: t =>
      if c = '"' then some (String.mk acc.reverse, t)
      else if c = '\\' then
        match unescapeStep t with
        | some (d, t2) => parseBasicStringAux fuel (d :: acc) t2
        | none => none
      else if c.toNat < 0x20 ∨ c.toNat = 0x7f then none
      else parseBasicStringAux fuel (c :: acc) t

/-- Numeric value of a list of decimal digit characters. -/
def digitsVal (l : List Char) : Nat :=
  l.foldl (fun a c => 10 * a + (c.toNat - '0'.toNat)) 0

/-- A TOML scalar value at the start of the input; returns it and the rest of
the line.  Integers are bounded the way the TOML crate's internal `i64` is. -/
def parseValueToken (l : List Char) : Option (TomlVal × List Char) :=
  match l with
  | [] => none
  | c :: t =>
    if c = '"' then
      (parseBasicStringAux (t.length + 1) [] t).map (fun p => (.str p.1, p.2))
    else if ("true".data).isPrefixOf l then some (.boolean true, l.drop 4)
    else if ("false".data).isPrefixOf l then some (.boolean false, l.drop 5)
    else if c = '-' then
      let digits := t.takeWhile Char.isDigit
      if digits.isEmpty then none
      else if digitsVal digits ≤ 2 ^ 63 then
        some (.int (-(digitsVal digits : Int)), t.drop digits.length)
      else none
    else if c.isDigit then
      let digits := l.takeWhile Char.isDigit
      if digitsVal digits < 2 ^ 63 then
        some (.int (digitsVal digits : Int), l.drop digits.length)
      else none
    else none

/-- One line of the TOML document: blank lines and comment lines yield no
pair, a `key = value` line yields its pair, anything else is an error. -/
def parseTomlLine (line : List Char) : Except String (Option (String × TomlVal)) :=
  let l1 := skipWs line
  match l1 with
  | [] => .ok none
  | c :: _ =>
    if c = '#' then .ok none
    else
      let key := l1.takeWhile isKeyChar
      if key.isEmpty then .error "expected key"
      else
        match skipWs (l1.drop key.length) with
        | '=' :: l3 =>
          match parseValueToken (skipWs l3) with
          | none => .error "expected value"
          | some (v, rest) =>
            match skipWs rest with
            | [] => .ok (some (String.mk key, v))
            | '#' :: _ => .ok (some (String.mk key, v))
            | _ => .error "trailing characters"
        | _ => .error "expected equals"

def collectPairs : List (List Char) → Except String (List (String × TomlVal))
  | [] => .ok []
  | line :: rest =>
    match parseTomlLine line with
    | .error e => .error e
    | .ok none => collectPairs rest
    | .ok (some p) =>
      match collectPairs rest with
      | .error e => .error e
      | .ok ps => .ok (p :: ps)

/-- The document layer of `toml::from_str`: key/value pairs of the block,
with duplicate keys rejected as the TOML crate does. -/
def parseTomlPairs (block : List Char) : Except String (List (String × TomlVal)) :=
  match collectPairs (splitOnChar '\n' block) with
  | .error e => .error e
  | .ok pairs =>
    if (pairs.map Prod.fst).Nodup then .ok pairs else .error "duplicate key"

/-- The serde layer of `toml::from_str` for `RecruitConfig`: required fields
`game_title`/`required_players`, optional `mention_role`, `notify_on_reaction`
defaulting to `true` (`default_notify_on_reaction`), and
`auto_assign_role_on_reaction` defaulting to `false`; unknown keys ignored.
`usize`/`RoleId` reject negative integers. -/
def buildRecruitConfig (pairs : List (String × TomlVal)) : Except String RecruitConfig :=
  let find := fun k => (pairs.find? (fun p => p.1 = k)).map Prod.snd
  match find "game_title" with
  | some (.str title) =>
    match find "required_players" with
    | some (.int n) =>
      if 0 ≤ n then
        match find "mention_role" with
        | some (.int r) =>
          if 0 ≤ r then
            match find "notify_on_reaction" with
            | some (.boolean nf) =>
              match find "auto_assign_role_on_reaction" with
              | some (.boolean au) =>
                .ok ⟨title, n.toNat, some r.toNat, nf, au⟩
              | some _ => .error "invalid type for auto_assign_role_on_reaction"
              | none => .ok ⟨title, n.toNat, some r.toNat, nf, false⟩
            | some _ => .error "invalid type for notify_on_reaction"
            | none =>
              match find "auto_assign_role_on_reaction" with
              | some (.boolean au) => .ok ⟨title, n.toNat, some r.toNat, true, au⟩
              | some _ => .error "invalid type for auto_assign_role_on_reaction"
              | none => .ok ⟨title, n.toNat, some r.toNat, true, false⟩
          else .error "mention_role out of range"
        | some _ => .error "invalid type for mention_role"
        | none =>
          match find "notify_on_reaction" with
          | some (.boolean nf) =>
            match find "auto_assign_role_on_reaction" with
            | some (.boolean au) => .ok ⟨title, n.toNat, none, nf, au⟩
            | some _ => .error "invalid type for auto_assign_role_on_reaction"
            | none => .ok ⟨title, n.toNat, none, nf, false⟩
          | some _ => .error "invalid type for notify_on_reaction"
          | none =>
            match find "auto_assign_role_on_reaction" with
            | some (.boolean au) => .ok ⟨title, n.toNat, none, true, au⟩
            | some _ => .error "invalid type for auto_assign_role_on_reaction"
            | none => .ok ⟨title, n.toNat, none, true, false⟩
      else .error "required_players out of range"
    | some _ => .error "invalid type for required_players"
    | none => .error "missing field required_players"
  | some _ => .error "invalid type for game_title"
  | none => .error "missing field game_title"

deriving instance DecidableEq for Except

/-- `parse_recruit_config` (main.rs lines 239-242): extract the fenced block,
then run the TOML document and serde layers. -/
def parse_recruit_config (content : String) : Except String RecruitConfig :=
  match extract_toml_block content.data with
  | none => .error "toml block not found"
  | some block =>
    match parseTomlPairs block with
    | .error e => .error e
    | .ok pairs => buildRecruitConfig pairs

/-! ## The reaction event handler and its side effects (main.rs 163-401)

Discord interactions are embedded as an explicit trace: each `channel.say`,
reaction mutation or deferred deletion the handler performs becomes one
`Effect` in the returned list (one constructor per call site), and guild role
membership is threaded as explicit state.  Whether the platform fails a
member fetch or a role grant is part of the environment. -/

structure Message where
  author_id : Nat
  channel_id : Nat
  content : String
deriving DecidableEq

structure Reaction where
  emoji : ReactionType
  user_id : Option Nat
  channel_id : Nat
  guild_id : Option Nat
deriving DecidableEq

/-- A platform reactor entry: user id plus the `User::bot` flag, listed in
the order Discord returns reactors (ascending user id). -/
abbrev Reactor := Nat × Bool

structure Env where
  bot_id : Nat
  message : Message
  /-- live reactors holding the participation emoji on the owning message -/
  partReactors : List Reactor
  /-- live reactors holding the silent participation emoji -/
  silentReactors : List Reactor
  /-- guild role membership: user id to the set of role ids held -/
  memberRoles : Nat → Finset Nat
  /-- whether `guild_id.member(...)` fails -/
  memberFetchFails : Bool
  /-- whether `member.add_role(...)` fails -/
  addRoleFails : Bool

inductive Effect where
  /-- `send_error_message`'s `channel_id.say` -/
  | errorMessage (channel : Nat) (content : String)
  /-- `send_participation_notification`'s `channel_id.say` -/
  | joinNotification (channel : Nat) (content : String)
  /-- `send_role_assign_error`'s `channel_id.say` -/
  | roleAssignError (channel : Nat) (content : String)
  /-- `send_start_notification`'s `channel_id.say` -/
  | startNotification (channel : Nat) (content : String)
  /-- `delete_reaction_emoji`: removes every reaction of the given kind -/
  | deleteReaction (kind : ReactionType)
  /-- `create_reaction`: the bot adds its own reaction of the given kind -/
  | addReaction (kind : ReactionType)
  /-- `schedule_delete_message` for the just-posted message -/
  | scheduleDelete (channel : Nat)
deriving DecidableEq

/-- `Mention` of a `UserId` renders as `<@id>`. -/
def mentionUser (u : Nat) : String := "<@" ++ natReprStr u ++ ">"

/-- `Mention` of a `RoleId` renders as `<@&id>`. -/
def mentionRole (r : Nat) : String := "<@&" ++ natReprStr r ++ ">"

/-- One page of `message.reaction_users(ctx, ty, Some(100), after)`:
Discord returns up to 100 reactors with id strictly greater than `after`,
in ascending id order. -/
def reaction_users_page (reactors : List Reactor) (after : Option Nat) : List Reactor :=
  (match after with
   | none => reactors
   | some a => reactors.filter (fun u => a < u.1)).take 100

/-- The pagination loop of `fetch_reaction_users` (main.rs lines 370-387):
filter out bots, stop when the filtered chunk is empty, advance the cursor to
the last filtered id, stop when the filtered chunk is shorter than 100.
`fuel` only bounds the iteration count so the definition is total; every
theorem below supplies ample fuel. -/
def fetchLoop : Nat → List Reactor → Option Nat → List Nat → List Nat
  | 0, _, _, acc => acc
  | fuel + 1, reactors, after, acc =>
    let chunk := ((reaction_users_page reactors after).filter (fun u => !u.2)).map Prod.fst
    if chunk.isEmpty then acc
    else
      let acc2 := acc ++ chunk
      if chunk.length < 100 then acc2
      else fetchLoop fuel reactors chunk.getLast? acc2

/-- `fetch_reaction_users` (main.rs lines 362-390). -/
def fetch_reaction_users (reactors : List Reactor) : List Nat :=
  fetchLoop (reactors.length + 1) reactors none []

/-- The non-bot reactor ids of a reactor list (what the claim says
`fetch_reaction_users` returns). -/
def nonBotIds (reactors : List Reactor) : List Nat :=
  (reactors.filter (fun u => !u.2)).map Prod.fst

/-- The `user_ids` HashSet of `handle_reaction_add` (main.rs lines 207-210):
reactors of both recognized kinds, deduplicated. -/
def participantsUnion (env : Env) : Finset Nat :=
  (fetch_reaction_users env.partReactors ++ fetch_reaction_users env.silentReactors).toFinset

/-- Content built by `send_error_message` (main.rs lines 255-264). -/
def error_message_content (r : Reaction) : String :=
  (match r.user_id with
   | some u => mentionUser u
   | none => "")
  ++ "募集設定の読み取りに失敗しました。募集メッセージを作り直してください。"

/-- `send_participation_notification` (main.rs lines 266-285). -/
def send_participation_notification (config : RecruitConfig) (r : Reaction) : List Effect :=
  match r.user_id with
  | none => []
  | some u =>
    [.joinNotification r.channel_id
       (mentionUser u ++ " が " ++ config.game_title ++ " に参加しました"),
     .scheduleDelete r.channel_id]

/-- Content built by `send_role_assign_error` (main.rs lines 351-360). -/
def role_assign_error_content (r : Reaction) : String :=
  match r.user_id with
  | some u => mentionUser u ++ " " ++ "ロールの付与に失敗しました。権限を確認してください。"
  | none => "ロールの付与に失敗しました。権限を確認してください。"

/-- Content of the start announcement (main.rs lines 294-306).  The HashSet
iteration order is not specified by the source; it is determinized here by
sorting, which no theorem depends on. -/
def start_notification_content (config : RecruitConfig) (role_id : Option Nat)
    (user_ids : Finset Nat) : String :=
  (match role_id with
   | some rid => mentionRole rid ++ "\n"
   | none => "")
  ++ String.intercalate " " ((user_ids.sort (· ≤ ·)).map mentionUser)
  ++ " が " ++ config.game_title ++ " を開始します"

/-- `send_start_notification` (main.rs lines 287-330): post the announcement,
schedule its deletion, then reset the reactions — the silent kind is deleted
and re-added only when `notify_on_reaction` is set. -/
def send_start_notification (config : RecruitConfig) (message : Message)
    (role_id : Option Nat) (user_ids : Finset Nat) : List Effect :=
  [.startNotification message.channel_id (start_notification_content config role_id user_ids),
   .scheduleDelete message.channel_id,
   .deleteReaction participation_reaction_type]
  ++ (if config.notify_on_reaction then [.deleteReaction silent_participation_reaction_type]
      else [])
  ++ [.addReaction participation_reaction_type]
  ++ (if config.notify_on_reaction then [.addReaction silent_participation_reaction_type]
      else [])

/-- `assign_role_if_missing` (main.rs lines 332-349): no-op without a user or
guild id, propagate a member-fetch failure, no-op if the role is already
held, otherwise add the role (which may fail). -/
def assign_role_if_missing (env : Env) (r : Reaction) (role_id : Nat) :
    Except String (Nat → Finset Nat) :=
  match r.user_id with
  | none => .ok env.memberRoles
  | some user_id =>
    match r.guild_id with
    | none => .ok env.memberRoles
    | some _ =>
      if env.memberFetchFails then .error "failed to fetch member"
      else if role_id ∈ env.memberRoles user_id then .ok env.memberRoles
      else if env.addRoleFails then .error "failed to add role"
      else .ok (fun v => if v = user_id then insert role_id (env.memberRoles user_id)
                         else env.memberRoles v)

/-- The role-assignment step of `handle_reaction_add` (main.rs lines
199-205): when `auto_assign_role_on_reaction` is set and a `mention_role` is
present, run `assign_role_if_missing`; a failure is reported via
`send_role_assign_error` and does not abort the handler. -/
def role_assign_step (env : Env) (r : Reaction) (config : RecruitConfig) :
    List Effect × Env :=
  if config.auto_assign_role_on_reaction then
    match config.mention_role with
    | some role_id =>
      match assign_role_if_missing env r role_id with
      | .ok roles => ([], { env with memberRoles := roles })
      | .error _ => ([.roleAssignError r.channel_id (role_assign_error_content r)], env)
    | none => ([], env)
  else ([], env)

/-- `handle_reaction_add` (main.rs lines 163-217), as a function from the
environment and the reaction event to the emitted effect trace and the
updated environment (role membership is the only state the handler mutates). -/
def handle_reaction_add (env : Env) (r : Reaction) : List Effect × Env :=
  if ¬ is_supported_participation_reaction r.emoji then ([], env)
  else if r.user_id = some env.bot_id then ([], env)
  else if env.message.author_id ≠ env.bot_id then ([], env)
  else if ¬ containsSub tomlOpenMarker env.message.content.data then ([], env)
  else
    match parse_recruit_config env.message.content with
    | .error _ => ([.errorMessage r.channel_id (error_message_content r)], env)
    | .ok config =>
      if config.required_players = 0 then
        ([.errorMessage r.channel_id (error_message_content r)], env)
      else
        let joinEffs :=
          if config.notify_on_reaction && is_participation_reaction r.emoji then
            send_participation_notification config r
          else []
        let roleStep := role_assign_step env r config
        let user_ids := participantsUnion env
        let startEffs :=
          if config.required_players ≤ user_ids.card then
            send_start_notification config env.message config.mention_role user_ids
          else []
        (joinEffs ++ roleStep.1 ++ startEffs, roleStep.2)

/-! ## Reaction membership state, for stating what the reset achieves -/

/-- The owning message's live reaction membership for the two recognized
kinds. -/
structure ReactionState where
  part : List Reactor
  silent : List Reactor
deriving DecidableEq

/-- Applying one platform effect to the reaction membership:
`delete_reaction_emoji` clears a kind, `create_reaction` appends the bot's
own (bot-flagged) reaction; everything else leaves reactions unchanged. -/
def applyEffect (bot_id : Nat) (st : ReactionState) : Effect → ReactionState
  | .deleteReaction kind =>
    if kind = participation_reaction_type then { st with part := [] }
    else if kind = silent_participation_reaction_type then { st with silent := [] }
    else st
  | .addReaction kind =>
    if kind = participation_reaction_type then { st with part := st.part ++ [(bot_id, true)] }
    else if kind = silent_participation_reaction_type then
      { st with silent := st.silent ++ [(bot_id, true)] }
    else st
  | _ => st

def applyEffects (bot_id : Nat) (effs : List Effect) (st : ReactionState) : ReactionState :=
  effs.foldl (applyEffect bot_id) st

/-- Title characters for which the encoder's Rust `Debug` escaping and the
TOML basic-string syntax are compatible: printable ASCII, excluding the
backquote (which can close the fenced block early). -/
def goodTitleChar (c : Char) : Prop := 0x20 ≤ c.toNat ∧ c.toNat ≤ 0x7e ∧ c ≠ '`'

instance (c : Char) : Decidable (goodTitleChar c) := by
  unfold goodTitleChar
  infer_instance

/-! ## Helper lemmas -/

theorem silent_ne_part_eq :
    (silent_participation_reaction_type = participation_reaction_type) = False := by
  simp only [eq_iff_iff, iff_false]
  decide

theorem applyEffect_delete_part (b : Nat) (st : ReactionState) :
    applyEffect b st (.deleteReaction participation_reaction_type) = { st with part := [] } := by
  simp [applyEffect]

theorem applyEffect_delete_silent (b : Nat) (st : ReactionState) :
    applyEffect b st (.deleteReaction silent_participation_reaction_type)
      = { st with silent := [] } := by
  simp [applyEffect, silent_ne_part_eq]

theorem applyEffect_add_part (b : Nat) (st : ReactionState) :
    applyEffect b st (.addReaction participation_reaction_type)
      = { st with part := st.part ++ [(b, true)] } := by
  simp [applyEffect]

theorem applyEffect_add_silent (b : Nat) (st : ReactionState) :
    applyEffect b st (.addReaction silent_participation_reaction_type)
      = { st with silent := st.silent ++ [(b, true)] } := by
  simp [applyEffect, silent_ne_part_eq]

theorem applyEffect_start (b : Nat) (st : ReactionState) (ch : Nat) (c : String) :
    applyEffect b st (.startNotification ch c) = st := rfl

theorem applyEffect_schedule (b : Nat) (st : ReactionState) (ch : Nat) :
    applyEffect b st (.scheduleDelete ch) = st := rfl

/-- A successful `parse_recruit_config` implies the `"```toml"` guard of the
handler passes. -/
theorem containsSub_of_parse_ok {content : String} {config : RecruitConfig}
    (h : parse_recruit_config content = .ok config) :
    containsSub tomlOpenMarker content.data = true := by
  unfold parse_recruit_config at h
  unfold containsSub
  cases he : extract_toml_block content.data with
  | none => simp [he] at h
  | some b =>
    unfold extract_toml_block at he
    cases hf : findSub tomlOpenMarker content.data with
    | none => simp [hf] at he
    | some i => simp [hf]

/-- Characterization of the handler on the non-error path. -/
theorem handle_reaction_add_eq {env : Env} {r : Reaction} {config : RecruitConfig}
    (h1 : is_supported_participation_reaction r.emoji = true)
    (h2 : r.user_id ≠ some env.bot_id)
    (h3 : env.message.author_id = env.bot_id)
    (hp : parse_recruit_config env.message.content = .ok config)
    (h0 : config.required_players ≠ 0) :
    handle_reaction_add env r =
      ((if config.notify_on_reaction && is_participation_reaction r.emoji
        then send_participation_notification config r else [])
       ++ (role_assign_step env r config).1
       ++ (if config.required_players ≤ (participantsUnion env).card
           then send_start_notification config env.message config.mention_role
                  (participantsUnion env)
           else []),
       (role_assign_step env r config).2) := by
  unfold handle_reaction_add
  rw [if_neg (by simp [h1]), if_neg h2, if_neg (by simp [h3]),
      if_neg (by simp [containsSub_of_parse_ok hp]), hp]
  simp [h0]

/-- Every effect of the role-assignment step is a role-assign error
message. -/
theorem role_assign_step_effects {env : Env} {r : Reaction} {config : RecruitConfig}
    {e : Effect} (he : e ∈ (role_assign_step env r config).1) :
    e = .roleAssignError r.channel_id (role_assign_error_content r) := by
  unfold role_assign_step at he
  by_cases ha : config.auto_assign_role_on_reaction = true
  · rw [if_pos ha] at he
    cases hm : config.mention_role with
    | none => rw [hm] at he; simp at he
    | some role_id =>
      simp only [hm] at he
      cases hass : assign_role_if_missing env r role_id with
      | ok roles => simp [hass] at he
      | error err => simp [hass] at he; exact he
  · rw [if_neg ha] at he; simp at he

theorem not_start_mem_participation {config : RecruitConfig} {r : Reaction}
    {ch : Nat} {c : String} :
    Effect.startNotification ch c ∉ send_participation_notification config r := by
  cases hu : r.user_id <;> simp [send_participation_notification, hu]

theorem not_join_mem_start {config : RecruitConfig} {msg : Message} {rid : Option Nat}
    {uids : Finset Nat} {ch : Nat} {c : String} :
    Effect.joinNotification ch c ∉ send_start_notification config msg rid uids := by
  cases hn : config.notify_on_reaction <;> simp [send_start_notification, hn]

/-- The start announcement is in the handler's trace iff quorum is met
(shared by several claims below). -/
theorem start_mem_iff_quorum {env : Env} {r : Reaction} {config : RecruitConfig}
    (h1 : is_supported_participation_reaction r.emoji = true)
    (h2 : r.user_id ≠ some env.bot_id)
    (h3 : env.message.author_id = env.bot_id)
    (hp : parse_recruit_config env.message.content = .ok config)
    (h0 : config.required_players ≠ 0) :
    (∃ c, Effect.startNotification env.message.channel_id c ∈ (handle_reaction_add env r).1)
      ↔ config.required_players ≤ (participantsUnion env).card := by
  rw [handle_reaction_add_eq h1 h2 h3 hp h0]
  constructor
  · rintro ⟨c, hc⟩
    rcases List.mem_append.mp hc with hc | hc
    · rcases List.mem_append.mp hc with hc | hc
      · by_cases hj : config.notify_on_reaction && is_participation_reaction r.emoji
        · rw [if_pos hj] at hc
          exact absurd hc not_start_mem_participation
        · rw [if_neg hj] at hc; simp at hc
      · have := role_assign_step_effects hc; simp at this
    · by_cases hq : config.required_players ≤ (participantsUnion env).card
      · exact hq
      · rw [if_neg hq] at hc; simp at hc
  · intro hq
    refine ⟨start_notification_content config config.mention_role (participantsUnion env), ?_⟩
    rw [if_pos hq]
    simp [send_start_notification]

/-! ### Round-trip machinery: decimal digits -/

theorem digitChar_cases (d : Nat) :
    digitChar d = '0' ∨ digitChar d = '1' ∨ digitChar d = '2' ∨ digitChar d = '3'
    ∨ digitChar d = '4' ∨ digitChar d = '5' ∨ digitChar d = '6' ∨ digitChar d = '7'
    ∨ digitChar d = '8' ∨ digitChar d = '9' := by
  rcases d with _|_|_|_|_|_|_|_|_|d <;> simp [digitChar]

theorem digitChar_isDigit (d : Nat) : (digitChar d).isDigit = true := by
  rcases digitChar_cases d with h|h|h|h|h|h|h|h|h|h <;> rw [h] <;> decide

theorem digitChar_props (d : Nat) :
    (digitChar d).isWhitespace = false ∧ digitChar d ≠ '`' ∧ digitChar d ≠ '\n'
    ∧ digitChar d ≠ '"' ∧ digitChar d ≠ '#' ∧ isKeyChar (digitChar d) = true
    ∧ isTomlWs (digitChar d) = false := by
  rcases digitChar_cases d with h|h|h|h|h|h|h|h|h|h <;> rw [h] <;> exact ⟨by decide, by decide,
    by decide, by decide, by decide, by decide, by decide⟩

theorem digitChar_toNat {d : Nat} (h : d < 10) : (digitChar d).toNat = 48 + d := by
  interval_cases d <;> rfl

theorem natDigitsAux_mem {fuel n : Nat} {c : Char} (hc : c ∈ natDigitsAux fuel n) :
    ∃ d, c = digitChar d := by
  induction fuel generalizing n with
  | zero => simp [natDigitsAux] at hc
  | succ fuel ih =>
    unfold natDigitsAux at hc
    by_cases hn : n = 0
    · simp [hn] at hc
    · rw [if_neg hn] at hc
      rcases List.mem_cons.mp hc with h | h
      · exact ⟨n % 10, h⟩
      · exact ih h

theorem natRepr_mem {n : Nat} {c : Char} (hc : c ∈ natRepr n) : ∃ d, c = digitChar d := by
  unfold natRepr at hc
  by_cases hn : n = 0
  · rw [if_pos hn] at hc
    simp at hc
    exact ⟨0, by rw [hc]; rfl⟩
  · rw [if_neg hn] at hc
    exact natDigitsAux_mem (List.mem_reverse.mp hc)

theorem natRepr_ne_nil (n : Nat) : natRepr n ≠ [] := by
  unfold natRepr
  by_cases hn : n = 0
  · simp [hn]
  · rw [if_neg hn]
    cases n with
    | zero => exact absurd rfl hn
    | succ k =>
      unfold natDigitsAux
      rw [if_neg hn]
      simp

theorem natDigitsAux_foldr {fuel n : Nat} (h : n ≤ fuel) :
    (natDigitsAux fuel n).foldr (fun c a => 10 * a + (c.toNat - 48)) 0 = n := by
  induction fuel generalizing n with
  | zero => interval_cases n; simp [natDigitsAux]
  | succ fuel ih =>
    unfold natDigitsAux
    by_cases hn : n = 0
    · simp [hn]
    · rw [if_neg hn]
      have hlt : n / 10 ≤ fuel := by
        have h1 : n / 10 < n := Nat.div_lt_self (Nat.pos_of_ne_zero hn) (by norm_num)
        omega
      have hmod : n % 10 < 10 := Nat.mod_lt _ (by norm_num)
      simp only [List.foldr_cons, ih hlt, digitChar_toNat hmod]
      omega

theorem digitsVal_natRepr (n : Nat) : digitsVal (natRepr n) = n := by
  unfold natRepr
  by_cases hn : n = 0
  · simp [hn, digitsVal]
  · rw [if_neg hn]
    unfold digitsVal
    rw [List.foldl_reverse]
    exact natDigitsAux_foldr le_rfl

/-! ### Round-trip machinery: searching, splitting, trimming -/

theorem takeWhile_all {p : Char → Bool} : ∀ {l : List Char}, (∀ c ∈ l, p c = true) →
    l.takeWhile p = l
  | [], _ => rfl
  | c :: t, h => by
    rw [List.takeWhile_cons, if_pos (h c (by simp))]
    rw [takeWhile_all (fun x hx => h x (by simp [hx]))]

theorem findSub_cons_eq (pat : List Char) (c : Char) (t : List Char) :
    findSub pat (c :: t)
      = if pat.isPrefixOf (c :: t) then some 0 else (findSub pat t).map (· + 1) := rfl

theorem findSub_append_of_notMem {x : Char} {pt a b : List Char} (ha : x ∉ a) :
    findSub (x :: pt) (a ++ b) = (findSub (x :: pt) b).map (· + a.length) := by
  induction a with
  | nil =>
    simp only [List.nil_append, List.length_nil]
    cases findSub (x :: pt) b <;> simp
  | cons c cs ih =>
    have hxc : x ≠ c := fun h => ha (h ▸ List.mem_cons_self c cs)
    have hcs : x ∉ cs := fun h => ha (List.mem_cons_of_mem c h)
    have hpre : (x :: pt).isPrefixOf (c :: (cs ++ b)) = false := by
      simp [List.isPrefixOf]
      intro h
      exact absurd h hxc
    rw [List.cons_append, findSub_cons_eq, hpre]
    simp only [Bool.false_eq_true, if_false, ih hcs]
    cases hfb : findSub (x :: pt) b with
    | none => rfl
    | some v =>
      simp only [Option.map_some', List.length_cons, Option.some.injEq]
      omega

theorem findSub_self {pat r : List Char} (hp : pat ≠ []) : findSub pat (pat ++ r) = some 0 := by
  cases pat with
  | nil => exact absurd rfl hp
  | cons c pt =>
    rw [List.cons_append, findSub_cons_eq, if_pos ?_]
    rw [List.isPrefixOf_iff_prefix]
    exact ⟨r, by simp⟩

theorem splitOnChar_cons_eq (sep c : Char) (t : List Char) :
    splitOnChar sep (c :: t)
      = match splitOnChar sep t with
        | [] => if c = sep then [[], []] else [[c]]
        | h :: r => if c = sep then [] :: h :: r else (c :: h) :: r := rfl

theorem splitOnChar_ne_nil {sep : Char} : ∀ {l : List Char}, splitOnChar sep l ≠ []
  | [] => by simp [splitOnChar]
  | c :: t => by
    rw [splitOnChar_cons_eq]
    cases h : splitOnChar sep t with
    | nil => by_cases hc : c = sep <;> simp [hc]
    | cons hd tl => by_cases hc : c = sep <;> simp [hc]

theorem splitOnChar_single {sep : Char} : ∀ {a : List Char}, sep ∉ a →
    splitOnChar sep a = [a]
  | [], _ => rfl
  | c :: t, ha => by
    have hct : sep ∉ t := fun h => ha (List.mem_cons_of_mem c h)
    have hc : ¬ (c = sep) := fun h => ha (h ▸ List.mem_cons_self c t)
    rw [splitOnChar_cons_eq, splitOnChar_single hct]
    simp [hc]

theorem splitOnChar_append {sep : Char} : ∀ {a : List Char} (b : List Char), sep ∉ a →
    splitOnChar sep (a ++ sep :: b) = a :: splitOnChar sep b
  | [], b, _ => by
    rw [List.nil_append, splitOnChar_cons_eq]
    cases h : splitOnChar sep b with
    | nil => exact absurd h splitOnChar_ne_nil
    | cons hd tl => simp
  | c :: t, b, ha => by
    have hct : sep ∉ t := fun h => ha (List.mem_cons_of_mem c h)
    have hc : ¬ (c = sep) := fun h => ha (h ▸ List.mem_cons_self c t)
    rw [List.cons_append, splitOnChar_cons_eq, splitOnChar_append b hct]
    simp [hc]

theorem trimChars_sandwich {c la : Char} {t rs : List Char}
    (hrev : (c :: t).reverse = la :: rs)
    (hh : c.isWhitespace = false) (hla : la.isWhitespace = false) :
    trimChars ('\n' :: ((c :: t) ++ ['\n'])) = c :: t := by
  unfold trimChars
  rw [List.cons_append, List.dropWhile_cons, if_pos (by decide), List.dropWhile_cons, hh]
  simp only [Bool.false_eq_true, if_false]
  have hstep : (c :: (t ++ ['\n'])).reverse = '\n' :: (c :: t).reverse := by
    simp [List.reverse_cons, List.reverse_append]
  rw [hstep, List.dropWhile_cons, if_pos (by decide), hrev, List.dropWhile_cons, hla]
  simp only [Bool.false_eq_true, if_false]
  rw [← hrev, List.reverse_reverse]

/-! ### Round-trip machinery: escaping and basic strings -/

theorem rustEscapeChar_quote : rustEscapeChar '"' = ['\\', '"'] := rfl

theorem rustEscapeChar_backslash : rustEscapeChar '\\' = ['\\', '\\'] := rfl

theorem rustEscapeChar_plain {c : Char} (h1 : 0x20 ≤ c.toNat) (h2 : c.toNat ≤ 0x7e)
    (hq : c ≠ '"') (hb : c ≠ '\\') : rustEscapeChar c = [c] := by
  unfold rustEscapeChar
  rw [if_neg hq, if_neg hb, if_neg ?hn, if_neg ?hr, if_neg ?ht, if_neg ?h0, if_neg ?hc]
  case hn => intro h; subst h; exact absurd h1 (by decide)
  case hr => intro h; subst h; exact absurd h1 (by decide)
  case ht => intro h; subst h; exact absurd h1 (by decide)
  case h0 => intro h; subst h; exact absurd h1 (by decide)
  case hc => intro h; omega

theorem rustEscape_flat_mem {cs : List Char} (h : ∀ c ∈ cs, goodTitleChar c)
    {x : Char} (hx : x ∈ cs.flatMap rustEscapeChar) : x ≠ '`' ∧ x ≠ '\n' := by
  rw [List.mem_flatMap] at hx
  obtain ⟨c, hc, hxc⟩ := hx
  obtain ⟨hc1, hc2, hc3⟩ := h c hc
  by_cases hq : c = '"'
  · subst hq
    rw [rustEscapeChar_quote] at hxc
    simp at hxc
    rcases hxc with rfl | rfl <;> exact ⟨by decide, by decide⟩
  · by_cases hb : c = '\\'
    · subst hb
      rw [rustEscapeChar_backslash] at hxc
      simp at hxc
      subst hxc
      exact ⟨by decide, by decide⟩
    · rw [rustEscapeChar_plain hc1 hc2 hq hb] at hxc
      simp at hxc
      subst hxc
      refine ⟨hc3, fun h => ?_⟩
      subst h
      exact absurd hc1 (by decide)

theorem pbs_end (fuel : Nat) (acc t : List Char) :
    parseBasicStringAux (fuel + 1) acc ('"' :: t) = some (String.mk acc.reverse, t) := by
  rw [parseBasicStringAux.eq_def]
  rfl

theorem pbs_escaped_quote (fuel : Nat) (acc t : List Char) :
    parseBasicStringAux (fuel + 1) acc ('\\' :: '"' :: t)
      = parseBasicStringAux fuel ('"' :: acc) t := by
  rw [parseBasicStringAux.eq_def]
  rfl

theorem pbs_escaped_backslash (fuel : Nat) (acc t : List Char) :
    parseBasicStringAux (fuel + 1) acc ('\\' :: '\\' :: t)
      = parseBasicStringAux fuel ('\\' :: acc) t := by
  rw [parseBasicStringAux.eq_def]
  rfl

theorem pbs_plain {c : Char} (h1 : 0x20 ≤ c.toNat) (h2 : c.toNat ≤ 0x7e)
    (hq : c ≠ '"') (hb : c ≠ '\\') (fuel : Nat) (acc t : List Char) :
    parseBasicStringAux (fuel + 1) acc (c :: t) = parseBasicStringAux fuel (c :: acc) t := by
  have hctl : ¬ (c.toNat < 0x20 ∨ c.toNat = 0x7f) := by omega
  rw [parseBasicStringAux.eq_def]
  simp only []
  rw [if_neg hq, if_neg hb, if_neg hctl]

theorem parseBasicStringAux_escaped :
    ∀ (cs : List Char), (∀ c ∈ cs, goodTitleChar c) → ∀ (acc r : List Char) (fuel : Nat),
    cs.length < fuel →
    parseBasicStringAux fuel acc (cs.flatMap rustEscapeChar ++ '"' :: r)
      = some (String.mk (acc.reverse ++ cs), r)
  | [], _, acc, r, fuel, hfuel => by
    cases fuel with
    | zero => omega
    | succ f =>
      simp [pbs_end]
  | c :: cs, h, acc, r, fuel, hfuel => by
    cases fuel with
    | zero => omega
    | succ f =>
      have hf : cs.length < f := by
        simp only [List.length_cons] at hfuel
        omega
      have hc := h c (List.mem_cons_self c cs)
      obtain ⟨hc1, hc2, hc3⟩ := hc
      have hcs : ∀ x ∈ cs, goodTitleChar x := fun x hx => h x (List.mem_cons_of_mem c hx)
      by_cases hq : c = '"'
      · subst hq
        have hflat : (('"' :: cs).flatMap rustEscapeChar) ++ '"' :: r
            = '\\' :: '"' :: (cs.flatMap rustEscapeChar ++ '"' :: r) := by
          simp [rustEscapeChar_quote]
        rw [hflat, pbs_escaped_quote, parseBasicStringAux_escaped cs hcs _ _ f hf]
        simp
      · by_cases hb : c = '\\'
        · subst hb
          have hflat : (('\\' :: cs).flatMap rustEscapeChar) ++ '"' :: r
              = '\\' :: '\\' :: (cs.flatMap rustEscapeChar ++ '"' :: r) := by
            simp [rustEscapeChar_backslash]
          rw [hflat, pbs_escaped_backslash, parseBasicStringAux_escaped cs hcs _ _ f hf]
          simp
        · have hflat : ((c :: cs).flatMap rustEscapeChar) ++ '"' :: r
              = c :: (cs.flatMap rustEscapeChar ++ '"' :: r) := by
            simp [rustEscapeChar_plain hc1 hc2 hq hb]
          rw [hflat, pbs_plain hc1 hc2 hq hb, parseBasicStringAux_escaped cs hcs _ _ f hf]
          simp

theorem rustEscape_flat_length {cs : List Char} (h : ∀ c ∈ cs, goodTitleChar c) :
    cs.length ≤ (cs.flatMap rustEscapeChar).length := by
  induction cs with
  | nil => simp
  | cons c cs ih =>
    have hc := h c (List.mem_cons_self c cs)
    obtain ⟨hc1, hc2, hc3⟩ := hc
    have hcs := ih (fun x hx => h x (List.mem_cons_of_mem c hx))
    rw [List.flatMap_cons]
    simp only [List.length_cons, List.length_append]
    have : 1 ≤ (rustEscapeChar c).length := by
      by_cases hq : c = '"'
      · subst hq; rw [rustEscapeChar_quote]; simp
      · by_cases hb : c = '\\'
        · subst hb; rw [rustEscapeChar_backslash]; simp
        · rw [rustEscapeChar_plain hc1 hc2 hq hb]; simp
    omega

/-- The value token produced by the encoder for `game_title` parses back to
the title. -/
theorem parseValueToken_string {t : String} (ht : ∀ c ∈ t.data, goodTitleChar c) :
    parseValueToken ('"' :: (t.data.flatMap rustEscapeChar ++ ['"'])) = some (.str t, []) := by
  simp only [parseValueToken]
  rw [if_pos trivial]
  have hfuel : t.data.length < (t.data.flatMap rustEscapeChar ++ ['"']).length + 1 := by
    have := rustEscape_flat_length ht
    simp only [List.length_append, List.length_cons, List.length_nil]
    omega
  have : t.data.flatMap rustEscapeChar ++ ['"']
      = t.data.flatMap rustEscapeChar ++ '"' :: [] := rfl
  rw [this, parseBasicStringAux_escaped t.data ht [] [] _ hfuel]
  simp

/-! ### Round-trip machinery: value tokens and lines -/

theorem digitChar_not_special (d : Nat) :
    digitChar d ≠ '"' ∧ digitChar d ≠ '-' ∧ ('t' == digitChar d) = false
    ∧ ('f' == digitChar d) = false := by
  rcases digitChar_cases d with h|h|h|h|h|h|h|h|h|h <;> rw [h] <;>
    exact ⟨by decide, by decide, by decide, by decide⟩

theorem parseValueToken_natRepr {n : Nat} (hn : n < 2 ^ 63) :
    parseValueToken (natRepr n) = some (.int (n : Int), []) := by
  obtain ⟨c0, t0, h0⟩ := List.exists_cons_of_ne_nil (natRepr_ne_nil n)
  have hd : ∀ c ∈ natRepr n, c.isDigit = true := by
    intro c hc
    obtain ⟨d, rfl⟩ := natRepr_mem hc
    exact digitChar_isDigit d
  obtain ⟨d0, hd0⟩ : ∃ d, c0 = digitChar d :=
    natRepr_mem (c := c0) (by rw [h0]; exact List.mem_cons_self c0 t0)
  obtain ⟨hs1, hs2, hs3, hs4⟩ := digitChar_not_special d0
  rw [h0]
  simp only [parseValueToken]
  rw [if_neg (show ¬ (c0 = '"') by rw [hd0]; exact hs1)]
  have htrue : ("true".data).isPrefixOf (c0 :: t0) = false := by
    show (('t' == c0) && (("rue".data).isPrefixOf t0)) = false
    rw [hd0, hs3, Bool.false_and]
  have hfalse : ("false".data).isPrefixOf (c0 :: t0) = false := by
    show (('f' == c0) && (("alse".data).isPrefixOf t0)) = false
    rw [hd0, hs4, Bool.false_and]
  rw [htrue, hfalse]
  simp only [Bool.false_eq_true, if_false]
  rw [if_neg (show ¬ (c0 = '-') by rw [hd0]; exact hs2)]
  have hdig : c0.isDigit = true := hd c0 (by rw [h0]; exact List.mem_cons_self c0 t0)
  rw [if_pos hdig]
  have htw : (c0 :: t0).takeWhile Char.isDigit = c0 :: t0 :=
    takeWhile_all (fun c hc => hd c (by rw [h0]; exact hc))
  rw [htw]
  have hval : digitsVal (c0 :: t0) = n := by rw [← h0]; exact digitsVal_natRepr n
  rw [hval, if_pos hn, List.drop_length]

theorem isKeyChar_props {c : Char} (h : isKeyChar c = true) :
    isTomlWs c = false ∧ ¬ (c = '#') := by
  constructor
  · cases hw : isTomlWs c with
    | false => rfl
    | true =>
      exfalso
      simp [isTomlWs] at hw
      rcases hw with h1 | h1 <;> subst h1 <;> exact absurd h (by decide)
  · intro hc
    subst hc
    exact absurd h (by decide)

theorem takeWhile_append_stop {p : Char → Bool} :
    ∀ {a : List Char} {c : Char} {b : List Char}, (∀ x ∈ a, p x = true) → p c = false →
    (a ++ c :: b).takeWhile p = a
  | [], c, b, _, hc => by simp [List.takeWhile_cons, hc]
  | x :: a, c, b, ha, hc => by
    rw [List.cons_append, List.takeWhile_cons, if_pos (ha x (List.mem_cons_self x a)),
      takeWhile_append_stop (fun y hy => ha y (List.mem_cons_of_mem x hy)) hc]

theorem skipWs_cons_of_neg {c : Char} {l : List Char} (h : isTomlWs c = false) :
    skipWs (c :: l) = c :: l := by
  unfold skipWs
  rw [List.dropWhile_cons, h]
  simp

/-- A well-formed `key = value` line parses to its pair. -/
theorem parseTomlLine_keyval {key : String} {valChars : List Char} {v : TomlVal}
    (hkne : key.data ≠ [])
    (hkey : ∀ c ∈ key.data, isKeyChar c = true)
    (hvshape : ∃ v0 vt, valChars = v0 :: vt ∧ isTomlWs v0 = false)
    (hv : parseValueToken valChars = some (v, [])) :
    parseTomlLine (key.data ++ ' ' :: '=' :: ' ' :: valChars) = .ok (some (key, v)) := by
  obtain ⟨k0, kt, hk0⟩ := List.exists_cons_of_ne_nil hkne
  have hk0c : isKeyChar k0 = true := hkey k0 (by rw [hk0]; exact List.mem_cons_self k0 kt)
  obtain ⟨hk0w, hk0h⟩ := isKeyChar_props hk0c
  obtain ⟨v0, vt, hv0, hv0w⟩ := hvshape
  have hkey' : ∀ c ∈ k0 :: kt, isKeyChar c = true := by
    rw [← hk0]; exact hkey
  have e2 : ((k0 :: kt) ++ ' ' :: '=' :: ' ' :: valChars).takeWhile isKeyChar = k0 :: kt :=
    takeWhile_append_stop hkey' (by decide)
  have e3 : ((k0 :: kt) ++ ' ' :: '=' :: ' ' :: valChars).drop (k0 :: kt).length
      = ' ' :: '=' :: ' ' :: valChars := List.drop_left _ _
  have e4 : skipWs (' ' :: '=' :: ' ' :: valChars) = '=' :: ' ' :: valChars := by
    unfold skipWs
    rw [List.dropWhile_cons, if_pos (by decide), List.dropWhile_cons,
      (show isTomlWs '=' = false by decide)]
    simp
  have e5 : skipWs (' ' :: valChars) = valChars := by
    unfold skipWs
    rw [List.dropWhile_cons, if_pos (by decide), hv0, List.dropWhile_cons, hv0w]
    simp
  rw [List.cons_append] at e2 e3
  simp only [parseTomlLine]
  rw [hk0]
  simp only [List.cons_append]
  rw [skipWs_cons_of_neg hk0w]
  simp only [if_neg hk0h, e2, List.isEmpty_cons, Bool.false_eq_true, if_false, e3, e4, e5, hv]
  show Except.ok (some (String.mk (k0 :: kt), v)) = _
  rw [← hk0]

/-! ### Round-trip machinery: document assembly -/

theorem joinLines_cons₂_data (a b : String) (ls : List String) :
    (joinLines (a :: b :: ls)).data = a.data ++ '\n' :: (joinLines (b :: ls)).data := by
  show (a ++ "\n" ++ joinLines (b :: ls)).data = _
  rw [String.data_append, String.data_append]
  simp

theorem collectPairs_join :
    ∀ (l : String) (ls : List String) (p : String × TomlVal) (ps : List (String × TomlVal)),
    parseTomlLine l.data = .ok (some p) →
    List.Forall₂ (fun (x : String) q => parseTomlLine x.data = .ok (some q)) ls ps →
    (∀ x ∈ l :: ls, ('\n' : Char) ∉ x.data) →
    collectPairs (splitOnChar '\n' (joinLines (l :: ls)).data) = .ok (p :: ps)
  | l, [], p, ps, hl, hps, hnl => by
    cases hps
    show collectPairs (splitOnChar '\n' l.data) = _
    rw [splitOnChar_single (hnl l (List.mem_cons_self l []))]
    simp [collectPairs, hl]
  | l, l2 :: ls, p, ps, hl, hps, hnl => by
    cases hps with
    | cons hp2 hrest =>
      rw [joinLines_cons₂_data, splitOnChar_append _ (hnl l (List.mem_cons_self _ _))]
      have hrec := collectPairs_join l2 ls _ _ hp2 hrest
        (fun x hx => hnl x (List.mem_cons_of_mem _ hx))
      simp [collectPairs, hl, hrec]

theorem joinLines_chars : ∀ (ls : List String),
    (∀ x ∈ ls, ∀ c ∈ x.data, c ≠ '`') → ∀ c ∈ (joinLines ls).data, c ≠ '`'
  | [], _, c, hc => by simp [joinLines] at hc
  | [l], h, c, hc => h l (List.mem_cons_self l []) c hc
  | l :: l2 :: ls, h, c, hc => by
    rw [joinLines_cons₂_data] at hc
    rcases List.mem_append.mp hc with hc | hc
    · exact h l (List.mem_cons_self _ _) c hc
    · rcases List.mem_cons.mp hc with hc | hc
      · subst hc; decide
      · exact joinLines_chars (l2 :: ls) (fun x hx => h x (List.mem_cons_of_mem _ hx)) c hc

theorem natRepr_reverse_digit (n : Nat) : ∃ d rs, (natRepr n).reverse = digitChar d :: rs := by
  by_cases hn : n = 0
  · subst hn
    exact ⟨0, [], rfl⟩
  · unfold natRepr
    rw [if_neg hn, List.reverse_reverse]
    cases n with
    | zero => exact absurd rfl hn
    | succ k =>
      unfold natDigitsAux
      rw [if_neg hn]
      exact ⟨(k + 1) % 10, _, rfl⟩

/-! ### Round-trip machinery: the individual encoder lines -/

theorem line_data_title (t : String) :
    ("game_title = " ++ rustDebugFormat t).data
      = ("game_title" : String).data
        ++ ' ' :: '=' :: ' ' :: ('"' :: (t.data.flatMap rustEscapeChar ++ ['"'])) := by
  rw [String.data_append]
  have h1 : ("game_title = " : String).data
      = ("game_title" : String).data ++ [' ', '=', ' '] := by decide
  have h2 : (rustDebugFormat t).data = '"' :: (t.data.flatMap rustEscapeChar ++ ['"']) := rfl
  rw [h1, h2]
  simp

theorem parse_line_title {t : String} (ht : ∀ c ∈ t.data, goodTitleChar c) :
    parseTomlLine ("game_title = " ++ rustDebugFormat t).data
      = .ok (some ("game_title", .str t)) := by
  rw [line_data_title]
  exact parseTomlLine_keyval (by decide) (by decide)
    ⟨'"', t.data.flatMap rustEscapeChar ++ ['"'], rfl, by decide⟩
    (parseValueToken_string ht)

theorem natRepr_head_shape (n : Nat) :
    ∃ v0 vt, natRepr n = v0 :: vt ∧ isTomlWs v0 = false := by
  obtain ⟨c0, t0, h0⟩ := List.exists_cons_of_ne_nil (natRepr_ne_nil n)
  obtain ⟨d, hd⟩ : ∃ d, c0 = digitChar d :=
    natRepr_mem (c := c0) (by rw [h0]; exact List.mem_cons_self c0 t0)
  exact ⟨c0, t0, h0, by rw [hd]; exact (digitChar_props d).2.2.2.2.2.2⟩

theorem parse_line_nat {key : String} {n : Nat}
    (hkne : key.data ≠ []) (hkey : ∀ c ∈ key.data, isKeyChar c = true) (hn : n < 2 ^ 63) :
    parseTomlLine (key.data ++ ' ' :: '=' :: ' ' :: natRepr n) = .ok (some (key, .int n)) :=
  parseTomlLine_keyval hkne hkey (natRepr_head_shape n) (parseValueToken_natRepr hn)

theorem line_data_nat (key tail : String) (n : Nat)
    (htail : tail.data = key.data ++ [' ', '=', ' ']) :
    (tail ++ natReprStr n).data = key.data ++ ' ' :: '=' :: ' ' :: natRepr n := by
  rw [String.data_append, htail]
  have : (natReprStr n).data = natRepr n := rfl
  rw [this]
  simp

theorem parse_line_required {n : Nat} (hn : n < 2 ^ 63) :
    parseTomlLine ("required_players = " ++ natReprStr n).data
      = .ok (some ("required_players", .int n)) := by
  rw [line_data_nat "required_players" _ _ (by decide)]
  exact parse_line_nat (by decide) (by decide) hn

theorem parse_line_mention {r : Nat} (hr : r < 2 ^ 63) :
    parseTomlLine ("mention_role = " ++ natReprStr r).data
      = .ok (some ("mention_role", .int r)) := by
  rw [line_data_nat "mention_role" _ _ (by decide)]
  exact parse_line_nat (by decide) (by decide) hr

theorem parse_line_notify :
    parseTomlLine ("notify_on_reaction = false" : String).data
      = .ok (some ("notify_on_reaction", .boolean false)) := by decide

theorem parse_line_auto :
    parseTomlLine ("auto_assign_role_on_reaction = true" : String).data
      = .ok (some ("auto_assign_role_on_reaction", .boolean true)) := by decide

theorem line_chars_title {t : String} (ht : ∀ c ∈ t.data, goodTitleChar c) :
    ∀ c ∈ ("game_title = " ++ rustDebugFormat t).data, c ≠ '`' ∧ c ≠ '\n' := by
  intro c hc
  rw [line_data_title] at hc
  rcases List.mem_append.mp hc with hc | hc
  · have hconc : ∀ x ∈ ("game_title" : String).data, x ≠ '`' ∧ x ≠ '\n' := by decide
    exact hconc c hc
  · rcases List.mem_cons.mp hc with hc | hc
    · subst hc; exact ⟨by decide, by decide⟩
    · rcases List.mem_cons.mp hc with hc | hc
      · subst hc; exact ⟨by decide, by decide⟩
      · rcases List.mem_cons.mp hc with hc | hc
        · subst hc; exact ⟨by decide, by decide⟩
        · rcases List.mem_cons.mp hc with hc | hc
          · subst hc; exact ⟨by decide, by decide⟩
          · rcases List.mem_append.mp hc with hc | hc
            · exact rustEscape_flat_mem ht hc
            · rcases List.mem_cons.mp hc with hc | hc
              · subst hc; exact ⟨by decide, by decide⟩
              · cases hc

theorem natRepr_char_props {n : Nat} {c : Char} (hc : c ∈ natRepr n) :
    c ≠ '`' ∧ c ≠ '\n' ∧ c.isWhitespace = false := by
  obtain ⟨d, rfl⟩ := natRepr_mem hc
  obtain ⟨p1, p2, p3, _⟩ := digitChar_props d
  exact ⟨p2, p3, p1⟩

theorem line_chars_nat (key tail : String) (n : Nat)
    (htail : tail.data = key.data ++ [' ', '=', ' '])
    (hkch : ∀ c ∈ key.data, c ≠ '`' ∧ c ≠ '\n') :
    ∀ c ∈ (tail ++ natReprStr n).data, c ≠ '`' ∧ c ≠ '\n' := by
  intro c hc
  rw [line_data_nat key tail n htail] at hc
  rcases List.mem_append.mp hc with hc | hc
  · exact hkch c hc
  · rcases List.mem_cons.mp hc with hc | hc
    · subst hc; exact ⟨by decide, by decide⟩
    · rcases List.mem_cons.mp hc with hc | hc
      · subst hc; exact ⟨by decide, by decide⟩
      · rcases List.mem_cons.mp hc with hc | hc
        · subst hc; exact ⟨by decide, by decide⟩
        · obtain ⟨p1, p2, _⟩ := natRepr_char_props hc
          exact ⟨p1, p2⟩

/-! ### Round-trip machinery: block extraction and overall shape -/

theorem extract_of_shape {pre cb : List Char}
    (hpre : ∀ x ∈ pre, x ≠ '`') (hcb : ∀ x ∈ cb, x ≠ '`')
    {c la : Char} {tl rs : List Char}
    (hcbs : cb = c :: tl) (hrev : cb.reverse = la :: rs)
    (hh : c.isWhitespace = false) (hla : la.isWhitespace = false) :
    extract_toml_block (pre ++ tomlOpenMarker ++ ('\n' :: (cb ++ '\n' :: tomlCloseMarker)))
      = some cb := by
  have hpre' : ('`' : Char) ∉ pre := fun h => (hpre _ h) rfl
  have hfind1 : findSub tomlOpenMarker
      (pre ++ tomlOpenMarker ++ ('\n' :: (cb ++ '\n' :: tomlCloseMarker)))
      = some pre.length := by
    rw [List.append_assoc]
    have hop : tomlOpenMarker = '`' :: ("``toml" : String).data := rfl
    rw [hop, findSub_append_of_notMem hpre', ← hop]
    rw [findSub_self (by decide)]
    simp
  have hdrop : (pre ++ tomlOpenMarker ++ ('\n' :: (cb ++ '\n' :: tomlCloseMarker))).drop
      (pre.length + tomlOpenMarker.length) = '\n' :: (cb ++ '\n' :: tomlCloseMarker) := by
    have hl : pre.length + tomlOpenMarker.length = (pre ++ tomlOpenMarker).length := by
      simp
    rw [hl, List.drop_left]
  have hX : '\n' :: (cb ++ '\n' :: tomlCloseMarker)
      = ('\n' :: (cb ++ ['\n'])) ++ tomlCloseMarker := by
    simp
  have ha : ('`' : Char) ∉ '\n' :: (cb ++ ['\n']) := by
    intro h
    rcases List.mem_cons.mp h with h | h
    · cases h
    · rcases List.mem_append.mp h with h | h
      · exact (hcb _ h) rfl
      · rcases List.mem_cons.mp h with h | h
        · cases h
        · cases h
  have hclose0 : findSub tomlCloseMarker (tomlCloseMarker ++ ([] : List Char)) = some 0 :=
    findSub_self (by decide)
  have hfind2 : findSub tomlCloseMarker ('\n' :: (cb ++ '\n' :: tomlCloseMarker))
      = some (cb.length + 2) := by
    rw [hX]
    have hcl : tomlCloseMarker = '`' :: ("``" : String).data := rfl
    rw [hcl, findSub_append_of_notMem ha, ← hcl]
    rw [List.append_nil] at hclose0
    rw [hclose0]
    simp
  have htake : ('\n' :: (cb ++ '\n' :: tomlCloseMarker)).take (cb.length + 2)
      = '\n' :: (cb ++ ['\n']) := by
    rw [hX]
    have hl : cb.length + 2 = ('\n' :: (cb ++ ['\n'])).length := by simp
    rw [hl, List.take_left]
  have htrim : trimChars ('\n' :: (cb ++ ['\n'])) = cb := by
    rw [hcbs]
    rw [hcbs] at hrev
    exact trimChars_sandwich hrev hh hla
  simp only [extract_toml_block, hfind1, hdrop, hfind2, htake, htrim]

theorem reaction_line_chars (nf : Bool) : ∀ c ∈ (reaction_line nf).data, c ≠ '`' := by
  cases nf <;> decide

theorem recruitMessageBody_shape (t : String) (n : Nat) (m : Option Nat) (nf au : Bool) :
    (recruitMessageBody t n m nf au).data
      = (("\nこのメッセージにリアクションをつけると " : String).data ++ t.data
          ++ (" に参加できます\n" : String).data ++ (reaction_line nf).data
          ++ ("\n人数が揃ったら開始通知が送られます\n" : String).data)
        ++ tomlOpenMarker
        ++ ('\n' :: ((config_block t n m nf au).data ++ '\n' :: tomlCloseMarker)) := by
  unfold recruitMessageBody
  simp only [String.data_append]
  simp [tomlOpenMarker, tomlCloseMarker, List.append_assoc]

theorem rev_head_of_append {A B : List Char} {la : Char} {rs : List Char}
    (h : B.reverse = la :: rs) : ∃ rs2, (A ++ B).reverse = la :: rs2 :=
  ⟨rs ++ A.reverse, by rw [List.reverse_append, h, List.cons_append]⟩

theorem rev_head_cons {B : List Char} {c la : Char} {rs : List Char}
    (h : B.reverse = la :: rs) : ∃ rs2, (c :: B).reverse = la :: rs2 :=
  ⟨rs ++ [c], by rw [List.reverse_cons, h, List.cons_append]⟩

theorem natline_reverse (key tail : String) (k : Nat)
    (htail : tail.data = key.data ++ [' ', '=', ' ']) :
    ∃ d rs, ((tail ++ natReprStr k).data).reverse = digitChar d :: rs := by
  rw [line_data_nat key tail k htail]
  obtain ⟨d, rs0, hd⟩ := natRepr_reverse_digit k
  have hre : key.data ++ ' ' :: '=' :: ' ' :: natRepr k
      = (key.data ++ [' ', '=', ' ']) ++ natRepr k := by simp
  rw [hre, List.reverse_append, hd]
  exact ⟨d, _, rfl⟩

theorem joinLines_rev_head : ∀ (ls : List String) (l : String) (la : Char) (rs : List Char),
    (l.data).reverse = la :: rs →
    ∃ rs2, ((joinLines (ls ++ [l])).data).reverse = la :: rs2
  | [], l, la, rs, h => ⟨rs, h⟩
  | a :: ls, l, la, rs, h => by
    obtain ⟨rs2, h2⟩ := joinLines_rev_head ls l la rs h
    cases hls : ls ++ [l] with
    | nil => exact absurd hls (by simp)
    | cons b rest =>
      rw [show (a :: ls) ++ [l] = a :: (ls ++ [l]) from rfl, hls, joinLines_cons₂_data]
      rw [hls] at h2
      have h3 : ∃ rs3, (('\n' : Char) :: (joinLines (b :: rest)).data).reverse = la :: rs3 :=
        rev_head_cons h2
      obtain ⟨rs3, h3⟩ := h3
      exact rev_head_of_append h3

theorem joinLines_head_g (l l2 : String) (ls : List String) {x : List Char}
    (h : l.data = 'g' :: x) :
    ∃ tl, (joinLines (l :: l2 :: ls)).data = 'g' :: tl :=
  ⟨x ++ '\n' :: (joinLines (l2 :: ls)).data, by rw [joinLines_cons₂_data, h, List.cons_append]⟩

/-- Master round-trip lemma: if the configuration block renders as a
non-empty list of benign lines that individually parse to `pairs` with
distinct keys, then decoding the whole posted message runs the serde layer
on exactly those pairs. -/
theorem parse_recruit_config_of_lines (t : String) (n : Nat) (m : Option Nat) (nf au : Bool)
    (ht : ∀ c ∈ t.data, goodTitleChar c)
    (l : String) (ls : List String) (p : String × TomlVal) (ps : List (String × TomlVal))
    (hblock : config_block t n m nf au = joinLines (l :: ls))
    (hchars : ∀ x ∈ l :: ls, ∀ c ∈ x.data, c ≠ '`' ∧ c ≠ '\n')
    (hl : parseTomlLine l.data = .ok (some p))
    (hpar : List.Forall₂ (fun (x : String) q => parseTomlLine x.data = .ok (some q)) ls ps)
    (hhead : ∃ tl, (joinLines (l :: ls)).data = 'g' :: tl)
    (hrev : ∃ la rs, ((joinLines (l :: ls)).data).reverse = la :: rs
              ∧ la.isWhitespace = false)
    (hnodup : ((p :: ps).map Prod.fst).Nodup) :
    parse_recruit_config (recruitMessageBody t n m nf au) = buildRecruitConfig (p :: ps) := by
  obtain ⟨tl, hhead⟩ := hhead
  obtain ⟨la, rs, hrev, hla⟩ := hrev
  have hcb : ∀ c ∈ (joinLines (l :: ls)).data, c ≠ '`' :=
    joinLines_chars _ (fun x hx c hc => (hchars x hx c hc).1)
  have hpre : ∀ x ∈ (("\nこのメッセージにリアクションをつけると " : String).data ++ t.data
      ++ (" に参加できます\n" : String).data ++ (reaction_line nf).data
      ++ ("\n人数が揃ったら開始通知が送られます\n" : String).data), x ≠ '`' := by
    intro x hx
    simp only [List.append_assoc, List.mem_append] at hx
    rcases hx with hx | hx | hx | hx | hx
    · exact (show ∀ y ∈ ("\nこのメッセージにリアクションをつけると " : String).data, y ≠ '`'
        by decide) x hx
    · exact (ht x hx).2.2
    · exact (show ∀ y ∈ (" に参加できます\n" : String).data, y ≠ '`' by decide) x hx
    · exact reaction_line_chars nf x hx
    · exact (show ∀ y ∈ ("\n人数が揃ったら開始通知が送られます\n" : String).data, y ≠ '`'
        by decide) x hx
  have hpairs : parseTomlPairs (joinLines (l :: ls)).data = .ok (p :: ps) := by
    unfold parseTomlPairs
    rw [collectPairs_join l ls p ps hl hpar
      (fun x hx hmem => ((hchars x hx _ hmem).2 rfl))]
    show (if (List.map Prod.fst (p :: ps)).Nodup then Except.ok (p :: ps)
          else Except.error "duplicate key") = Except.ok (p :: ps)
    rw [if_pos hnodup]
  have hext := extract_of_shape hpre hcb hhead hrev (by decide) hla
  unfold parse_recruit_config
  rw [recruitMessageBody_shape, hblock, hext]
  simp only [hpairs]

set_option maxHeartbeats 1600000 in
/-- C1 (amended): full round trip through the posted message body, for
titles made of printable ASCII characters other than the backquote. -/
theorem parse_recruit_config_roundtrip (t : String) (n : Nat) (m : Option Nat) (nf au : Bool)
    (ht : ∀ c ∈ t.data, goodTitleChar c) (hn0 : 0 < n) (hn : n < 2 ^ 63)
    (hm : ∀ r ∈ m, r < 2 ^ 63) :
    parse_recruit_config (recruitMessageBody t n m nf au) = .ok ⟨t, n, m, nf, au⟩ := by
  have hL1p := parse_line_title ht
  have hL2p := parse_line_required hn
  have hL1c := line_chars_title ht
  have hL2c := line_chars_nat "required_players" "required_players = " n (by decide) (by decide)
  have hL4c : ∀ c ∈ ("notify_on_reaction = false" : String).data, c ≠ '`' ∧ c ≠ '\n' := by
    decide
  have hL5c : ∀ c ∈ ("auto_assign_role_on_reaction = true" : String).data,
      c ≠ '`' ∧ c ≠ '\n' := by decide
  have hL1head : ("game_title = " ++ rustDebugFormat t).data
      = 'g' :: (("ame_title = " : String).data ++ (rustDebugFormat t).data) := by
    rw [String.data_append]
    rfl
  have hL2rev := natline_reverse "required_players" "required_players = " n (by decide)
  have hL4rev : ∃ rs, (("notify_on_reaction = false" : String).data).reverse = 'e' :: rs :=
    ⟨_, rfl⟩
  have hL5rev : ∃ rs, (("auto_assign_role_on_reaction = true" : String).data).reverse
      = 'e' :: rs := ⟨_, rfl⟩
  rcases m with _ | rid
  · cases nf with
    | true =>
      cases au with
      | false =>
        have hchars : ∀ x ∈ ["game_title = " ++ rustDebugFormat t,
            "required_players = " ++ natReprStr n], ∀ c ∈ x.data, c ≠ '`' ∧ c ≠ '\n' := by
          intro x hx
          rcases List.mem_cons.mp hx with rfl | hx
          · exact hL1c
          rcases List.mem_cons.mp hx with rfl | hx
          · exact hL2c
          cases hx
        have hhead : ∃ tl, (joinLines ["game_title = " ++ rustDebugFormat t,
            "required_players = " ++ natReprStr n]).data = 'g' :: tl :=
          joinLines_head_g _ _ _ hL1head
        have hrev : ∃ la rs, ((joinLines ["game_title = " ++ rustDebugFormat t,
            "required_players = " ++ natReprStr n]).data).reverse = la :: rs
            ∧ la.isWhitespace = false := by
          obtain ⟨d, rs0, hd⟩ := hL2rev
          obtain ⟨rs2, h2⟩ := joinLines_rev_head ["game_title = " ++ rustDebugFormat t]
            ("required_players = " ++ natReprStr n) _ _ hd
          exact ⟨digitChar d, rs2, h2, (digitChar_props d).1⟩
        have hmain := parse_recruit_config_of_lines t n none true false ht
          ("game_title = " ++ rustDebugFormat t)
          ["required_players = " ++ natReprStr n]
          ("game_title", .str t) [("required_players", .int n)]
          rfl hchars hL1p (List.Forall₂.cons hL2p List.Forall₂.nil) hhead hrev (by simp)
        rw [hmain]
        simp [buildRecruitConfig, List.find?]
      | true =>
        have hchars : ∀ x ∈ ["game_title = " ++ rustDebugFormat t,
            "required_players = " ++ natReprStr n,
            ("auto_assign_role_on_reaction = true" : String)],
            ∀ c ∈ x.data, c ≠ '`' ∧ c ≠ '\n' := by
          intro x hx
          rcases List.mem_cons.mp hx with rfl | hx
          · exact hL1c
          rcases List.mem_cons.mp hx with rfl | hx
          · exact hL2c
          rcases List.mem_cons.mp hx with rfl | hx
          · exact hL5c
          cases hx
        have hhead : ∃ tl, (joinLines ["game_title = " ++ rustDebugFormat t,
            "required_players = " ++ natReprStr n,
            ("auto_assign_role_on_reaction = true" : String)]).data = 'g' :: tl :=
          joinLines_head_g _ _ _ hL1head
        have hrev : ∃ la rs, ((joinLines ["game_title = " ++ rustDebugFormat t,
            "required_players = " ++ natReprStr n,
            ("auto_assign_role_on_reaction = true" : String)]).data).reverse = la :: rs
            ∧ la.isWhitespace = false := by
          obtain ⟨rs0, hd⟩ := hL5rev
          obtain ⟨rs2, h2⟩ := joinLines_rev_head
            ["game_title = " ++ rustDebugFormat t, "required_players = " ++ natReprStr n]
            ("auto_assign_role_on_reaction = true" : String) _ _ hd
          exact ⟨'e', rs2, h2, by decide⟩
        have hmain := parse_recruit_config_of_lines t n none true true ht
          ("game_title = " ++ rustDebugFormat t)
          ["required_players = " ++ natReprStr n,
           ("auto_assign_role_on_reaction = true" : String)]
          ("game_title", .str t)
          [("required_players", .int n), ("auto_assign_role_on_reaction", .boolean true)]
          rfl hchars hL1p
          (List.Forall₂.cons hL2p (List.Forall₂.cons parse_line_auto List.Forall₂.nil))
          hhead hrev (by simp)
        rw [hmain]
        simp [buildRecruitConfig, List.find?]
    | false =>
      cases au with
      | false =>
        have hchars : ∀ x ∈ ["game_title = " ++ rustDebugFormat t,
            "required_players = " ++ natReprStr n,
            ("notify_on_reaction = false" : String)],
            ∀ c ∈ x.data, c ≠ '`' ∧ c ≠ '\n' := by
          intro x hx
          rcases List.mem_cons.mp hx with rfl | hx
          · exact hL1c
          rcases List.mem_cons.mp hx with rfl | hx
          · exact hL2c
          rcases List.mem_cons.mp hx with rfl | hx
          · exact hL4c
          cases hx
        have hhead : ∃ tl, (joinLines ["game_title = " ++ rustDebugFormat t,
            "required_players = " ++ natReprStr n,
            ("notify_on_reaction = false" : String)]).data = 'g' :: tl :=
          joinLines_head_g _ _ _ hL1head
        have hrev : ∃ la rs, ((joinLines ["game_title = " ++ rustDebugFormat t,
            "required_players = " ++ natReprStr n,
            ("notify_on_reaction = false" : String)]).data).reverse = la :: rs
            ∧ la.isWhitespace = false := by
          obtain ⟨rs0, hd⟩ := hL4rev
          obtain ⟨rs2, h2⟩ := joinLines_rev_head
            ["game_title = " ++ rustDebugFormat t, "required_players = " ++ natReprStr n]
            ("notify_on_reaction = false" : String) _ _ hd
          exact ⟨'e', rs2, h2, by decide⟩
        have hmain := parse_recruit_config_of_lines t n none false false ht
          ("game_title = " ++ rustDebugFormat t)
          ["required_players = " ++ natReprStr n, ("notify_on_reaction = false" : String)]
          ("game_title", .str t)
          [("required_players", .int n), ("notify_on_reaction", .boolean false)]
          rfl hchars hL1p
          (List.Forall₂.cons hL2p (List.Forall₂.cons parse_line_notify List.Forall₂.nil))
          hhead hrev (by simp)
        rw [hmain]
        simp [buildRecruitConfig, List.find?]
      | true =>
        have hchars : ∀ x ∈ ["game_title = " ++ rustDebugFormat t,
            "required_players = " ++ natReprStr n,
            ("notify_on_reaction = false" : String),
            ("auto_assign_role_on_reaction = true" : String)],
            ∀ c ∈ x.data, c ≠ '`' ∧ c ≠ '\n' := by
          intro x hx
          rcases List.mem_cons.mp hx with rfl | hx
          · exact hL1c
          rcases List.mem_cons.mp hx with rfl | hx
          · exact hL2c
          rcases List.mem_cons.mp hx with rfl | hx
          · exact hL4c
          rcases List.mem_cons.mp hx with rfl | hx
          · exact hL5c
          cases hx
        have hhead : ∃ tl, (joinLines ["game_title = " ++ rustDebugFormat t,
            "required_players = " ++ natReprStr n,
            ("notify_on_reaction = false" : String),
            ("auto_assign_role_on_reaction = true" : String)]).data = 'g' :: tl :=
          joinLines_head_g _ _ _ hL1head
        have hrev : ∃ la rs, ((joinLines ["game_title = " ++ rustDebugFormat t,
            "required_players = " ++ natReprStr n,
            ("notify_on_reaction = false" : String),
            ("auto_assign_role_on_reaction = true" : String)]).data).reverse = la :: rs
            ∧ la.isWhitespace = false := by
          obtain ⟨rs0, hd⟩ := hL5rev
          obtain ⟨rs2, h2⟩ := joinLines_rev_head
            ["game_title = " ++ rustDebugFormat t, "required_players = " ++ natReprStr n,
             ("notify_on_reaction = false" : String)]
            ("auto_assign_role_on_reaction = true" : String) _ _ hd
          exact ⟨'e', rs2, h2, by decide⟩
        have hmain := parse_recruit_config_of_lines t n none false true ht
          ("game_title = " ++ rustDebugFormat t)
          ["required_players = " ++ natReprStr n, ("notify_on_reaction = false" : String),
           ("auto_assign_role_on_reaction = true" : String)]
          ("game_title", .str t)
          [("required_players", .int n), ("notify_on_reaction", .boolean false),
           ("auto_assign_role_on_reaction", .boolean true)]
          rfl hchars hL1p
          (List.Forall₂.cons hL2p (List.Forall₂.cons parse_line_notify
            (List.Forall₂.cons parse_line_auto List.Forall₂.nil)))
          hhead hrev (by simp)
        rw [hmain]
        simp [buildRecruitConfig, List.find?]
  · have hrid : rid < 2 ^ 63 := hm rid rfl
    have hL3p := parse_line_mention hrid
    have hL3c := line_chars_nat "mention_role" "mention_role = " rid (by decide) (by decide)
    have hL3rev := natline_reverse "mention_role" "mention_role = " rid (by decide)
    cases nf with
    | true =>
      cases au with
      | false =>
        have hchars : ∀ x ∈ ["game_title = " ++ rustDebugFormat t,
            "required_players = " ++ natReprStr n,
            "mention_role = " ++ natReprStr rid],
            ∀ c ∈ x.data, c ≠ '`' ∧ c ≠ '\n' := by
          intro x hx
          rcases List.mem_cons.mp hx with rfl | hx
          · exact hL1c
          rcases List.mem_cons.mp hx with rfl | hx
          · exact hL2c
          rcases List.mem_cons.mp hx with rfl | hx
          · exact hL3c
          cases hx
        have hhead : ∃ tl, (joinLines ["game_title = " ++ rustDebugFormat t,
            "required_players = " ++ natReprStr n,
            "mention_role = " ++ natReprStr rid]).data = 'g' :: tl :=
          joinLines_head_g _ _ _ hL1head
        have hrev : ∃ la rs, ((joinLines ["game_title = " ++ rustDebugFormat t,
            "required_players = " ++ natReprStr n,
            "mention_role = " ++ natReprStr rid]).data).reverse = la :: rs
            ∧ la.isWhitespace = false := by
          obtain ⟨d, rs0, hd⟩ := hL3rev
          obtain ⟨rs2, h2⟩ := joinLines_rev_head
            ["game_title = " ++ rustDebugFormat t, "required_players = " ++ natReprStr n]
            ("mention_role = " ++ natReprStr rid) _ _ hd
          exact ⟨digitChar d, rs2, h2, (digitChar_props d).1⟩
        have hmain := parse_recruit_config_of_lines t n (some rid) true false ht
          ("game_title = " ++ rustDebugFormat t)
          ["required_players = " ++ natReprStr n, "mention_role = " ++ natReprStr rid]
          ("game_title", .str t)
          [("required_players", .int n), ("mention_role", .int rid)]
          rfl hchars hL1p
          (List.Forall₂.cons hL2p (List.Forall₂.cons hL3p List.Forall₂.nil))
          hhead hrev (by simp)
        rw [hmain]
        simp [buildRecruitConfig, List.find?]
      | true =>
        have hchars : ∀ x ∈ ["game_title = " ++ rustDebugFormat t,
            "required_players = " ++ natReprStr n,
            "mention_role = " ++ natReprStr rid,
            ("auto_assign_role_on_reaction = true" : String)],
            ∀ c ∈ x.data, c ≠ '`' ∧ c ≠ '\n' := by
          intro x hx
          rcases List.mem_cons.mp hx with rfl | hx
          · exact hL1c
          rcases List.mem_cons.mp hx with rfl | hx
          · exact hL2c
          rcases List.mem_cons.mp hx with rfl | hx
          · exact hL3c
          rcases List.mem_cons.mp hx with rfl | hx
          · exact hL5c
          cases hx
        have hhead : ∃ tl, (joinLines ["game_title = " ++ rustDebugFormat t,
            "required_players = " ++ natReprStr n,
            "mention_role = " ++ natReprStr rid,
            ("auto_assign_role_on_reaction = true" : String)]).data = 'g' :: tl :=
          joinLines_head_g _ _ _ hL1head
        have hrev : ∃ la rs, ((joinLines ["game_title = " ++ rustDebugFormat t,
            "required_players = " ++ natReprStr n,
            "mention_role = " ++ natReprStr rid,
            ("auto_assign_role_on_reaction = true" : String)]).data).reverse = la :: rs
            ∧ la.isWhitespace = false := by
          obtain ⟨rs0, hd⟩ := hL5rev
          obtain ⟨rs2, h2⟩ := joinLines_rev_head
            ["game_title = " ++ rustDebugFormat t, "required_players = " ++ natReprStr n,
             "mention_role = " ++ natReprStr rid]
            ("auto_assign_role_on_reaction = true" : String) _ _ hd
          exact ⟨'e', rs2, h2, by decide⟩
        have hmain := parse_recruit_config_of_lines t n (some rid) true true ht
          ("game_title = " ++ rustDebugFormat t)
          ["required_players = " ++ natReprStr n, "mention_role = " ++ natReprStr rid,
           ("auto_assign_role_on_reaction = true" : String)]
          ("game_title", .str t)
          [("required_players", .int n), ("mention_role", .int rid),
           ("auto_assign_role_on_reaction", .boolean true)]
          rfl hchars hL1p
          (List.Forall₂.cons hL2p (List.Forall₂.cons hL3p
            (List.Forall₂.cons parse_line_auto List.Forall₂.nil)))
          hhead hrev (by simp)
        rw [hmain]
        simp [buildRecruitConfig, List.find?]
    | false =>
      cases au with
      | false =>
        have hchars : ∀ x ∈ ["game_title = " ++ rustDebugFormat t,
            "required_players = " ++ natReprStr n,
            "mention_role = " ++ natReprStr rid,
            ("notify_on_reaction = false" : String)],
            ∀ c ∈ x.data, c ≠ '`' ∧ c ≠ '\n' := by
          intro x hx
          rcases List.mem_cons.mp hx with rfl | hx
          · exact hL1c
          rcases List.mem_cons.mp hx with rfl | hx
          · exact hL2c
          rcases List.mem_cons.mp hx with rfl | hx
          · exact hL3c
          rcases List.mem_cons.mp hx with rfl | hx
          · exact hL4c
          cases hx
        have hhead : ∃ tl, (joinLines ["game_title = " ++ rustDebugFormat t,
            "required_players = " ++ natReprStr n,
            "mention_role = " ++ natReprStr rid,
            ("notify_on_reaction = false" : String)]).data = 'g' :: tl :=
          joinLines_head_g _ _ _ hL1head
        have hrev : ∃ la rs, ((joinLines ["game_title = " ++ rustDebugFormat t,
            "required_players = " ++ natReprStr n,
            "mention_role = " ++ natReprStr rid,
            ("notify_on_reaction = false" : String)]).data).reverse = la :: rs
            ∧ la.isWhitespace = false := by
          obtain ⟨rs0, hd⟩ := hL4rev
          obtain ⟨rs2, h2⟩ := joinLines_rev_head
            ["game_title = " ++ rustDebugFormat t, "required_players = " ++ natReprStr n,
             "mention_role = " ++ natReprStr rid]
            ("notify_on_reaction = false" : String) _ _ hd
          exact ⟨'e', rs2, h2, by decide⟩
        have hmain := parse_recruit_config_of_lines t n (some rid) false false ht
          ("game_title = " ++ rustDebugFormat t)
          ["required_players = " ++ natReprStr n, "mention_role = " ++ natReprStr rid,
           ("notify_on_reaction = false" : String)]
          ("game_title", .str t)
          [("required_players", .int n), ("mention_role", .int rid),
           ("notify_on_reaction", .boolean false)]
          rfl hchars hL1p
          (List.Forall₂.cons hL2p (List.Forall₂.cons hL3p
            (List.Forall₂.cons parse_line_notify List.Forall₂.nil)))
          hhead hrev (by simp)
        rw [hmain]
        simp [buildRecruitConfig, List.find?]
      | true =>
        have hchars : ∀ x ∈ ["game_title = " ++ rustDebugFormat t,
            "required_players = " ++ natReprStr n,
            "mention_role = " ++ natReprStr rid,
            ("notify_on_reaction = false" : String),
            ("auto_assign_role_on_reaction = true" : String)],
            ∀ c ∈ x.data, c ≠ '`' ∧ c ≠ '\n' := by
          intro x hx
          rcases List.mem_cons.mp hx with rfl | hx
          · exact hL1c
          rcases List.mem_cons.mp hx with rfl | hx
          · exact hL2c
          rcases List.mem_cons.mp hx with rfl | hx
          · exact hL3c
          rcases List.mem_cons.mp hx with rfl | hx
          · exact hL4c
          rcases List.mem_cons.mp hx with rfl | hx
          · exact hL5c
          cases hx
        have hhead : ∃ tl, (joinLines ["game_title = " ++ rustDebugFormat t,
            "required_players = " ++ natReprStr n,
            "mention_role = " ++ natReprStr rid,
            ("notify_on_reaction = false" : String),
            ("auto_assign_role_on_reaction = true" : String)]).data = 'g' :: tl :=
          joinLines_head_g _ _ _ hL1head
        have hrev : ∃ la rs, ((joinLines ["game_title = " ++ rustDebugFormat t,
            "required_players = " ++ natReprStr n,
            "mention_role = " ++ natReprStr rid,
            ("notify_on_reaction = false" : String),
            ("auto_assign_role_on_reaction = true" : String)]).data).reverse = la :: rs
            ∧ la.isWhitespace = false := by
          obtain ⟨rs0, hd⟩ := hL5rev
          obtain ⟨rs2, h2⟩ := joinLines_rev_head
            ["game_title = " ++ rustDebugFormat t, "required_players = " ++ natReprStr n,
             "mention_role = " ++ natReprStr rid, ("notify_on_reaction = false" : String)]
            ("auto_assign_role_on_reaction = true" : String) _ _ hd
          exact ⟨'e', rs2, h2, by decide⟩
        have hmain := parse_recruit_config_of_lines t n (some rid) false true ht
          ("game_title = " ++ rustDebugFormat t)
          ["required_players = " ++ natReprStr n, "mention_role = " ++ natReprStr rid,
           ("notify_on_reaction = false" : String),
           ("auto_assign_role_on_reaction = true" : String)]
          ("game_title", .str t)
          [("required_players", .int n), ("mention_role", .int rid),
           ("notify_on_reaction", .boolean false),
           ("auto_assign_role_on_reaction", .boolean true)]
          rfl hchars hL1p
          (List.Forall₂.cons hL2p (List.Forall₂.cons hL3p
            (List.Forall₂.cons parse_line_notify
              (List.Forall₂.cons parse_line_auto List.Forall₂.nil))))
          hhead hrev (by simp)
        rw [hmain]
        simp [buildRecruitConfig, List.find?]

/-! ## Claim theorems -/

set_option maxRecDepth 16384 in
/-- C1 (counterexample): the round trip fails for the valid state with
`activity_title = "```"` — the title's backquotes close the fenced block
early, so the decoder sees a truncated `game_title` line and errors out
instead of returning the state. -/
theorem roundtrip_fails_on_backquote_title :
    parse_recruit_config (recruitMessageBody "```" 2 none true false) = .error "expected value"
    ∧ parse_recruit_config (recruitMessageBody "```" 2 none true false)
        ≠ .ok ⟨"```", 2, none, true, false⟩ := by
  constructor
  · decide
  · decide

theorem parse_recruit_config_roundtrip_witness :
    parse_recruit_config (recruitMessageBody "Raid Night" 2 (some 55) false true)
      = .ok ⟨"Raid Night", 2, some 55, false, true⟩ :=
  parse_recruit_config_roundtrip "Raid Night" 2 (some 55) false true
    (by decide) (by decide) (by decide)
    (by intro r hr; cases hr; decide)

/-- C2 (counterexample): the claim says the quorum reset removes all existing
reactions of every recognized kind for every decoded configuration, including
those with `notify_on_join` disabled.  It does not: with
`notify_on_reaction = false` the start sequence leaves a pre-existing silent
participation reaction (here user 7's) in place. -/
theorem start_reset_keeps_silent_reactions :
    (applyEffects 1
        (send_start_notification ⟨"Raid", 2, none, false, false⟩ ⟨1, 10, ""⟩ none {3, 7})
        ⟨[], [(7, false)]⟩).silent = [(7, false)] := by
  decide

/-- C2 (amended): the reset performed by `send_start_notification` clears and
re-baselines the notifying (participation) kind for every configuration, but
clears and re-baselines the silent kind only when `notify_on_reaction` is
enabled; with it disabled the silent kind's reactions are left untouched. -/
theorem start_reset_reaction_state (config : RecruitConfig) (msg : Message)
    (role_id : Option Nat) (users : Finset Nat) (bot_id : Nat) (st : ReactionState) :
    applyEffects bot_id (send_start_notification config msg role_id users) st
      = ⟨[(bot_id, true)],
         if config.notify_on_reaction then [(bot_id, true)] else st.silent⟩ := by
  cases hn : config.notify_on_reaction <;>
    simp [send_start_notification, hn, applyEffects, applyEffect_delete_part,
          applyEffect_delete_silent, applyEffect_add_part, applyEffect_add_silent,
          applyEffect_start, applyEffect_schedule]

theorem start_reset_reaction_state_witness :
    applyEffects 1
        (send_start_notification ⟨"Raid", 2, none, false, false⟩ ⟨1, 10, ""⟩ none {3, 7})
        ⟨[], [(7, false)]⟩
      = ⟨[(1, true)], if (false : Bool) then [(1, true)] else [(7, false)]⟩ :=
  start_reset_reaction_state ⟨"Raid", 2, none, false, false⟩ ⟨1, 10, ""⟩ none {3, 7} 1
    ⟨[], [(7, false)]⟩

/-- C3: on the non-error path the start announcement is posted if and only if
the recomputed participant set has at least `required_players` members. -/
theorem start_iff_quorum (env : Env) (r : Reaction) (config : RecruitConfig)
    (h1 : is_supported_participation_reaction r.emoji = true)
    (h2 : r.user_id ≠ some env.bot_id)
    (h3 : env.message.author_id = env.bot_id)
    (hp : parse_recruit_config env.message.content = .ok config)
    (h0 : config.required_players ≠ 0) :
    (∃ c, Effect.startNotification env.message.channel_id c ∈ (handle_reaction_add env r).1)
      ↔ config.required_players ≤ (participantsUnion env).card :=
  start_mem_iff_quorum h1 h2 h3 hp h0

theorem start_iff_quorum_witness :
    ((∃ c, Effect.startNotification 10 c
        ∈ (handle_reaction_add
            ⟨1, ⟨1, 10, "```toml\ngame_title = \"Raid\"\nrequired_players = 1\n```"⟩,
             [(5, false)], [], fun _ => ∅, false, false⟩
            ⟨participation_reaction_type, some 7, 10, none⟩).1)
      ↔ 1 ≤ (participantsUnion
            ⟨1, ⟨1, 10, "```toml\ngame_title = \"Raid\"\nrequired_players = 1\n```"⟩,
             [(5, false)], [], fun _ => ∅, false, false⟩).card) :=
  start_iff_quorum
    ⟨1, ⟨1, 10, "```toml\ngame_title = \"Raid\"\nrequired_players = 1\n```"⟩,
     [(5, false)], [], fun _ => ∅, false, false⟩
    ⟨participation_reaction_type, some 7, 10, none⟩
    ⟨"Raid", 1, none, true, false⟩
    (by decide) (by decide) (by decide) (by decide) (by decide)

/-- C4: evaluation of `fetch_reaction_users` at a reactor list of 101 users
(ids 1..101, ascending, user 1 a bot, all others human).  The first fetched
page holds 100 reactors, the bot-filtered chunk has 99 < 100 entries, so the
loop stops after one page and the non-bot reactor 101 is silently omitted,
contradicting the claimed completeness for interleaved bot/human lists. -/
theorem fetch_reaction_users_misses_reactor :
    ((101, false) ∈ (List.range 101).map (fun i => (i + 1, i == 0))
      ∧ (101 : Nat) ∈ nonBotIds ((List.range 101).map (fun i => (i + 1, i == 0))))
    ∧ (101 : Nat) ∉ fetch_reaction_users ((List.range 101).map (fun i => (i + 1, i == 0))) := by
  decide

/-- C5: the deduplicated `user_ids` set used for the quorum comparison counts
an actor who reacted with both the notifying and the silent kind exactly
once. -/
theorem participants_counted_once (env : Env) (a : Nat)
    (h1 : a ∈ fetch_reaction_users env.partReactors)
    (h2 : a ∈ fetch_reaction_users env.silentReactors) :
    (participantsUnion env).val.count a = 1 := by
  have hmem : a ∈ (participantsUnion env).val := by
    have ha : a ∈ participantsUnion env := by
      simp only [participantsUnion, List.mem_toFinset, List.mem_append]
      exact Or.inl h1
    simpa [Finset.mem_val] using ha
  exact Multiset.count_eq_one_of_mem (participantsUnion env).nodup hmem

theorem participants_counted_once_witness :
    (participantsUnion
        ⟨1, ⟨1, 10, ""⟩, [(5, false)], [(5, false)], fun _ => ∅, false, false⟩).val.count 5
      = 1 :=
  participants_counted_once
    ⟨1, ⟨1, 10, ""⟩, [(5, false)], [(5, false)], fun _ => ∅, false, false⟩ 5
    (by decide) (by decide)

/-- C6: when the decoded state is malformed or invalid
(`required_players = 0`), the handler emits exactly the one error message
naming the acting user and has no other effect (no state change either). -/
theorem invalid_config_single_error (env : Env) (r : Reaction)
    (h1 : is_supported_participation_reaction r.emoji = true)
    (h2 : r.user_id ≠ some env.bot_id)
    (h3 : env.message.author_id = env.bot_id)
    (h4 : containsSub tomlOpenMarker env.message.content.data = true)
    (hp : ∀ config, parse_recruit_config env.message.content = .ok config →
          config.required_players = 0) :
    handle_reaction_add env r = ([.errorMessage r.channel_id (error_message_content r)], env)
    ∧ (∀ u, r.user_id = some u →
        error_message_content r
          = mentionUser u
            ++ "募集設定の読み取りに失敗しました。募集メッセージを作り直してください。") := by
  constructor
  · unfold handle_reaction_add
    rw [if_neg (by simp [h1]), if_neg h2, if_neg (by simp [h3]), if_neg (by simp [h4])]
    cases hpc : parse_recruit_config env.message.content with
    | error e => rfl
    | ok config => simp [hp config hpc]
  · intro u hu
    simp [error_message_content, hu]

theorem invalid_config_single_error_witness :
    (handle_reaction_add
        ⟨1, ⟨1, 10, "```toml\ngame_title = \"x\"\nrequired_players = 0\n```"⟩,
         [], [], fun _ => ∅, false, false⟩
        ⟨participation_reaction_type, some 7, 10, none⟩).1
      = [.errorMessage 10
           (error_message_content ⟨participation_reaction_type, some 7, 10, none⟩)]
    ∧ error_message_content ⟨participation_reaction_type, some 7, 10, none⟩
      = mentionUser 7
        ++ "募集設定の読み取りに失敗しました。募集メッセージを作り直してください。" := by
  have h := invalid_config_single_error
    ⟨1, ⟨1, 10, "```toml\ngame_title = \"x\"\nrequired_players = 0\n```"⟩,
     [], [], fun _ => ∅, false, false⟩
    ⟨participation_reaction_type, some 7, 10, none⟩
    (by decide) (by decide) (by decide) (by decide)
    (by
      intro config hc
      have he : parse_recruit_config
          "```toml\ngame_title = \"x\"\nrequired_players = 0\n```"
            = .ok ⟨"x", 0, none, true, false⟩ := by decide
      rw [he] at hc
      cases hc
      rfl)
  exact ⟨congrArg Prod.fst h.1, h.2 7 rfl⟩

/-- C7: the per-join announcement naming the joining actor and the activity
title is emitted iff `notify_on_reaction` is set and the triggering kind is
the notifying one; the silent kind never produces it. -/
theorem join_notification_iff (env : Env) (r : Reaction) (config : RecruitConfig) (u : Nat)
    (h1 : is_supported_participation_reaction r.emoji = true)
    (h2 : r.user_id ≠ some env.bot_id)
    (h3 : env.message.author_id = env.bot_id)
    (hp : parse_recruit_config env.message.content = .ok config)
    (h0 : config.required_players ≠ 0)
    (hu : r.user_id = some u) :
    (Effect.joinNotification r.channel_id
        (mentionUser u ++ " が " ++ config.game_title ++ " に参加しました")
      ∈ (handle_reaction_add env r).1)
    ↔ (config.notify_on_reaction = true ∧ is_participation_reaction r.emoji = true) := by
  rw [handle_reaction_add_eq h1 h2 h3 hp h0]
  constructor
  · intro hc
    rcases List.mem_append.mp hc with hc | hc
    · rcases List.mem_append.mp hc with hc | hc
      · by_cases hj : (config.notify_on_reaction && is_participation_reaction r.emoji) = true
        · simp only [Bool.and_eq_true] at hj; exact hj
        · rw [if_neg hj] at hc; simp at hc
      · have := role_assign_step_effects hc; simp at this
    · by_cases hq : config.required_players ≤ (participantsUnion env).card
      · rw [if_pos hq] at hc; exact absurd hc not_join_mem_start
      · rw [if_neg hq] at hc; simp at hc
  · rintro ⟨hn, hk⟩
    refine List.mem_append.mpr (Or.inl (List.mem_append.mpr (Or.inl ?_)))
    rw [if_pos (by rw [hn, hk]; rfl)]
    simp [send_participation_notification, hu]

theorem join_notification_iff_witness :
    ((Effect.joinNotification 10 (mentionUser 7 ++ " が " ++ "Raid" ++ " に参加しました")
      ∈ (handle_reaction_add
          ⟨1, ⟨1, 10, "```toml\ngame_title = \"Raid\"\nrequired_players = 1\n```"⟩,
           [], [], fun _ => ∅, false, false⟩
          ⟨participation_reaction_type, some 7, 10, none⟩).1)
      ↔ (true = true ∧ is_participation_reaction participation_reaction_type = true)) :=
  join_notification_iff
    ⟨1, ⟨1, 10, "```toml\ngame_title = \"Raid\"\nrequired_players = 1\n```"⟩,
     [], [], fun _ => ∅, false, false⟩
    ⟨participation_reaction_type, some 7, 10, none⟩
    ⟨"Raid", 1, none, true, false⟩ 7
    (by decide) (by decide) (by decide) (by decide) (by decide) (by decide)

/-- C8: the role grant is idempotent and non-fatal — (1) it checks current
membership and performs no mutation when the actor already holds the role,
(2) running it a second time for the same actor/target leaves membership
unchanged and produces no error, and (3) a grant failure surfaces as the
role-assign error message while aggregation and the quorum check still
run. -/
theorem role_grant_idempotent_nonfatal :
    (∀ (env : Env) (r : Reaction) (role_id u g : Nat),
      env.memberFetchFails = false → r.user_id = some u → r.guild_id = some g →
      role_id ∈ env.memberRoles u →
      assign_role_if_missing env r role_id = .ok env.memberRoles)
    ∧ (∀ (env : Env) (r : Reaction) (role_id : Nat) (roles : Nat → Finset Nat),
        env.memberFetchFails = false →
        assign_role_if_missing env r role_id = .ok roles →
        assign_role_if_missing { env with memberRoles := roles } r role_id = .ok roles)
    ∧ (∀ (env : Env) (r : Reaction) (config : RecruitConfig) (role_id : Nat) (e : String),
        is_supported_participation_reaction r.emoji = true →
        r.user_id ≠ some env.bot_id →
        env.message.author_id = env.bot_id →
        parse_recruit_config env.message.content = .ok config →
        config.required_players ≠ 0 →
        config.auto_assign_role_on_reaction = true →
        config.mention_role = some role_id →
        assign_role_if_missing env r role_id = .error e →
        Effect.roleAssignError r.channel_id (role_assign_error_content r)
            ∈ (handle_reaction_add env r).1
        ∧ ((∃ c, Effect.startNotification env.message.channel_id c
              ∈ (handle_reaction_add env r).1)
           ↔ config.required_players ≤ (participantsUnion env).card)) := by
  refine ⟨?_, ?_, ?_⟩
  · intro env r role_id u g hmf hu hg hr
    simp [assign_role_if_missing, hu, hg, hmf, hr]
  · intro env r role_id roles hmf h
    unfold assign_role_if_missing at h ⊢
    cases hu : r.user_id with
    | none => simp [hu] at h ⊢
    | some u =>
      cases hg : r.guild_id with
      | none => simp [hu, hg] at h ⊢
      | some g =>
        simp only [hu, hg, hmf, Bool.false_eq_true, if_false] at h ⊢
        by_cases hr : role_id ∈ env.memberRoles u
        · rw [if_pos hr] at h
          cases h
          simp [hr]
        · rw [if_neg hr] at h
          by_cases haf : env.addRoleFails = true
          · rw [if_pos haf] at h; cases h
          · rw [if_neg haf] at h
            cases h
            simp
  · intro env r config role_id e h1 h2 h3 hp h0 ha hm hass
    constructor
    · rw [handle_reaction_add_eq h1 h2 h3 hp h0]
      refine List.mem_append.mpr (Or.inl (List.mem_append.mpr (Or.inr ?_)))
      simp [role_assign_step, ha, hm, hass]
    · exact start_mem_iff_quorum h1 h2 h3 hp h0

set_option maxRecDepth 8192 in
theorem role_grant_idempotent_nonfatal_witness :
    (assign_role_if_missing
        ⟨1, ⟨1, 10, ""⟩, [], [], (fun _ => {5}), false, false⟩
        ⟨participation_reaction_type, some 7, 10, some 3⟩ 5
      = .ok (fun _ => {5}))
    ∧ (assign_role_if_missing
        ⟨1, ⟨1, 10, ""⟩, [], [],
         ({ bot_id := 1, message := ⟨1, 10, ""⟩, partReactors := [], silentReactors := [],
            memberRoles := fun _ => {5}, memberFetchFails := false,
            addRoleFails := false } : Env).memberRoles, false, false⟩
        ⟨participation_reaction_type, some 7, 10, some 3⟩ 5
      = .ok (fun _ => {5}))
    ∧ (Effect.roleAssignError 10
          (role_assign_error_content ⟨participation_reaction_type, some 7, 10, some 3⟩)
        ∈ (handle_reaction_add
            ⟨1, ⟨1, 10, "```toml\ngame_title = \"Raid\"\nrequired_players = 1\nmention_role = 5\nauto_assign_role_on_reaction = true\n```"⟩,
             [(7, false)], [], fun _ => ∅, false, true⟩
            ⟨participation_reaction_type, some 7, 10, some 3⟩).1) := by
  have h := role_grant_idempotent_nonfatal
  refine ⟨?_, ?_, ?_⟩
  · exact h.1 ⟨1, ⟨1, 10, ""⟩, [], [], (fun _ => {5}), false, false⟩
      ⟨participation_reaction_type, some 7, 10, some 3⟩ 5 7 3 rfl rfl rfl (by decide)
  · exact h.2.1 ⟨1, ⟨1, 10, ""⟩, [], [], (fun _ => {5}), false, false⟩
      ⟨participation_reaction_type, some 7, 10, some 3⟩ 5 (fun _ => {5}) rfl
      (h.1 ⟨1, ⟨1, 10, ""⟩, [], [], (fun _ => {5}), false, false⟩
        ⟨participation_reaction_type, some 7, 10, some 3⟩ 5 7 3 rfl rfl rfl (by decide))
  · exact (h.2.2
      ⟨1, ⟨1, 10, "```toml\ngame_title = \"Raid\"\nrequired_players = 1\nmention_role = 5\nauto_assign_role_on_reaction = true\n```"⟩,
       [(7, false)], [], fun _ => ∅, false, true⟩
      ⟨participation_reaction_type, some 7, 10, some 3⟩
      ⟨"Raid", 1, some 5, true, true⟩ 5 "failed to add role"
      (by decide) (by decide) (by decide) (by decide) (by decide) (by decide) (by decide)
      rfl).1

/-- C10 (implicit): the participant set counts reactors of both recognized
kinds regardless of the decoded configuration — even under a configuration
with `notify_on_reaction = false`, where the creation command attaches only
the notifying baseline reaction, a silent-kind reactor still counts toward
quorum and can trigger the start. -/
theorem silent_counts_even_when_notify_disabled (env : Env) (r : Reaction)
    (config : RecruitConfig) (u : Nat)
    (h1 : is_supported_participation_reaction r.emoji = true)
    (h2 : r.user_id ≠ some env.bot_id)
    (h3 : env.message.author_id = env.bot_id)
    (hp : parse_recruit_config env.message.content = .ok config)
    (h0 : config.required_players ≠ 0)
    (hnf : config.notify_on_reaction = false)
    (hu : u ∈ fetch_reaction_users env.silentReactors) :
    (recruitBaselineReactions false = [participation_reaction_type]
      ∧ silent_participation_reaction_type ∉ recruitBaselineReactions false)
    ∧ u ∈ participantsUnion env
    ∧ (config.required_players ≤ (participantsUnion env).card →
        ∃ c, Effect.startNotification env.message.channel_id c
          ∈ (handle_reaction_add env r).1) := by
  refine ⟨⟨rfl, by decide⟩, ?_, ?_⟩
  · simp only [participantsUnion, List.mem_toFinset, List.mem_append]
    exact Or.inr hu
  · intro hq
    exact (start_mem_iff_quorum h1 h2 h3 hp h0).mpr hq

theorem silent_counts_even_when_notify_disabled_witness :
    ((recruitBaselineReactions false = [participation_reaction_type]
      ∧ silent_participation_reaction_type ∉ recruitBaselineReactions false)
    ∧ 7 ∈ participantsUnion
        ⟨1, ⟨1, 10, "```toml\ngame_title = \"Raid\"\nrequired_players = 1\nnotify_on_reaction = false\n```"⟩,
         [], [(7, false)], fun _ => ∅, false, false⟩
    ∧ (1 ≤ (participantsUnion
          ⟨1, ⟨1, 10, "```toml\ngame_title = \"Raid\"\nrequired_players = 1\nnotify_on_reaction = false\n```"⟩,
           [], [(7, false)], fun _ => ∅, false, false⟩).card →
        ∃ c, Effect.startNotification 10 c
          ∈ (handle_reaction_add
              ⟨1, ⟨1, 10, "```toml\ngame_title = \"Raid\"\nrequired_players = 1\nnotify_on_reaction = false\n```"⟩,
               [], [(7, false)], fun _ => ∅, false, false⟩
              ⟨silent_participation_reaction_type, some 7, 10, none⟩).1)) :=
  silent_counts_even_when_notify_disabled
    ⟨1, ⟨1, 10, "```toml\ngame_title = \"Raid\"\nrequired_players = 1\nnotify_on_reaction = false\n```"⟩,
     [], [(7, false)], fun _ => ∅, false, false⟩
    ⟨silent_participation_reaction_type, some 7, 10, none⟩
    ⟨"Raid", 1, none, false, false⟩ 7
    (by decide) (by decide) (by decide) (by decide) (by decide) (by decide) (by decide)

/-- C9: serde-layer decode behavior — missing `notify_on_reaction` defaults
to `true`, missing `auto_assign_role_on_reaction` defaults to `false`,
missing `mention_role` decodes as absent, an unknown key is ignored (also at
the full string level), and a fragment missing a required key is a decode
error. -/
theorem decode_defaults_and_unknown_keys (t : String) (n : Nat) (k : String) (v : TomlVal)
    (hk : k ∉ ["game_title", "required_players", "mention_role", "notify_on_reaction",
               "auto_assign_role_on_reaction"]) :
    buildRecruitConfig [("game_title", .str t), ("required_players", .int n)]
        = .ok ⟨t, n, none, true, false⟩
    ∧ buildRecruitConfig [("game_title", .str t), ("required_players", .int n), (k, v)]
        = .ok ⟨t, n, none, true, false⟩
    ∧ buildRecruitConfig [("required_players", .int n)] = .error "missing field game_title"
    ∧ buildRecruitConfig [("game_title", .str t)] = .error "missing field required_players"
    ∧ parse_recruit_config
        "```toml\ngame_title = \"x\"\nrequired_players = 2\nfuture_key = true\n```"
        = .ok ⟨"x", 2, none, true, false⟩ := by
  have hk1 : ¬ (k = "game_title") := fun h => hk (by rw [h]; simp)
  have hk2 : ¬ (k = "required_players") := fun h => hk (by rw [h]; simp)
  have hk3 : ¬ (k = "mention_role") := fun h => hk (by rw [h]; simp)
  have hk4 : ¬ (k = "notify_on_reaction") := fun h => hk (by rw [h]; simp)
  have hk5 : ¬ (k = "auto_assign_role_on_reaction") := fun h => hk (by rw [h]; simp)
  refine ⟨?_, ?_, ?_, ?_, by decide⟩
  · simp [buildRecruitConfig, List.find?]
  · simp [buildRecruitConfig, List.find?, hk1, hk2, hk3, hk4, hk5]
  · simp [buildRecruitConfig, List.find?]
  · simp [buildRecruitConfig, List.find?]

theorem decode_defaults_and_unknown_keys_witness :
    buildRecruitConfig [("game_title", .str "x"), ("required_players", .int 2)]
        = .ok ⟨"x", 2, none, true, false⟩
    ∧ buildRecruitConfig
          [("game_title", .str "x"), ("required_players", .int 2),
           ("future_key", .boolean true)]
        = .ok ⟨"x", 2, none, true, false⟩
    ∧ buildRecruitConfig [("required_players", .int 2)] = .error "missing field game_title"
    ∧ buildRecruitConfig [("game_title", .str "x")] = .error "missing field required_players"
    ∧ parse_recruit_config
        "```toml\ngame_title = \"x\"\nrequired_players = 2\nfuture_key = true\n```"
        = .ok ⟨"x", 2, none, true, false⟩ :=
  decode_defaults_and_unknown_keys "x" 2 "future_key" (.boolean true) (by decide)

end Joinbell

